import Mathlib

/-!
# Phasespace motion-capture client: frame decoder and asynchronous logger

A shallow embedding of `owl_fetch_frame` (phsp_ports.c), `phsp_log_start`
(phasespace_codels.c), `owl_log`, `owl_log_init` and `owl_poll` (owl.c),
`phsp_publish_poll`, `phsp_publish_recv` and `phsp_publish_err`
(phasespace_publish_codels.c) and `my_set_all_rotor_velocity` (rotor_speed.c), followed
by the properties established about them.

Conventions of the embedding

* C `double` values are kept abstract: every definition is parameterised by a type `F`
  and a record `FloatOps F` of the floating-point primitives the code calls.
* `size_t` counters are natural numbers reduced modulo `2 ^ 64`.
* A C pointer that may be `NULL` is an `Option`.
* Calls into the operating system (`recv`, `aio_error`, `aio_return`, `aio_write`, `open`)
  take their outcome from an explicit environment argument and report what they did in
  an explicit list of effects.
-/

namespace Phasespace

/-! ## Data model (phasespace_c_types.h) -/

/-- One octet of the wire stream. -/
abbrev Byte := Fin 256

/-- `PHASESPACE_MAX_MARKERS` of phasespace_c_types.h. -/
def PHASESPACE_MAX_MARKERS : Nat := 128

/-- `PHASESPACE_MAX_RIGIDS` of phasespace_c_types.h. -/
def PHASESPACE_MAX_RIGIDS : Nat := 64

/-- `OWL_MAX_MARKERS` of phsp_ports.c. -/
def OWL_MAX_MARKERS : Nat := 128

/-- `OWL_MAX_RIGIDS` of phsp_ports.c. -/
def OWL_MAX_RIGIDS : Nat := 64

/-- `SIZE_MAX + 1` on the 64-bit targets the component is built for. -/
def SIZE_MOD : Nat := 2 ^ 64

/-- The floating-point primitives used by the code, over an abstract carrier `F` of
`double` values. `ofF32` is the value of a `float` whose four bytes, in memory order,
are the arguments, widened to `double`; `fmtG` is what `printf("%g")` prints. -/
structure FloatOps (F : Type) where
  zero : F
  one : F
  two : F
  add : F → F → F
  sub : F → F → F
  mul : F → F → F
  sqrt : F → F
  atan2 : F → F → F
  asin : F → F
  fmax : F → F → F
  fmin : F → F → F
  neg : F → F
  ofF32 : Byte → Byte → Byte → Byte → F
  fmtG : F → List Char

/-- The struct `phasespace_marker_s`. -/
structure phasespace_marker_s (F : Type) where
  id : Int
  flags : Int
  time : Int
  x : F
  y : F
  z : F
  cond : F
deriving DecidableEq

/-- The struct `phasespace_rigid_s`. -/
structure phasespace_rigid_s (F : Type) where
  id : Int
  flags : Int
  time : Int
  x : F
  y : F
  z : F
  qw : F
  qx : F
  qy : F
  qz : F
  cond : F
deriving DecidableEq

/-- The struct `phasespace_bodies`: two counts and two fixed-size arrays, the arrays
being lists of length 128 and 64. -/
structure phasespace_bodies (F : Type) where
  num_markers : Nat
  markers : List (phasespace_marker_s F)
  num_rigids : Nat
  rigids : List (phasespace_rigid_s F)
deriving DecidableEq

/-- The struct `phasespace_server_s`; the untyped `ctx` pointer carries no data here. -/
structure phasespace_server_s where
  fd : Int
deriving DecidableEq

section Decoder

variable {F : Type}

/-- A marker whose bytes are all zero. -/
def zero_marker (ops : FloatOps F) : phasespace_marker_s F :=
  { id := 0, flags := 0, time := 0, x := ops.zero, y := ops.zero, z := ops.zero,
    cond := ops.zero }

/-- A rigid body whose bytes are all zero. -/
def zero_rigid (ops : FloatOps F) : phasespace_rigid_s F :=
  { id := 0, flags := 0, time := 0, x := ops.zero, y := ops.zero, z := ops.zero,
    qw := ops.zero, qx := ops.zero, qy := ops.zero, qz := ops.zero, cond := ops.zero }

/-- The frame left by `memset(bodies, 0, sizeof(*bodies))`. -/
def zero_bodies (ops : FloatOps F) : phasespace_bodies F :=
  { num_markers := 0,
    markers := List.replicate PHASESPACE_MAX_MARKERS (zero_marker ops),
    num_rigids := 0,
    rigids := List.replicate PHASESPACE_MAX_RIGIDS (zero_rigid ops) }

/-! ## owl_fetch_frame (phsp_ports.c) -/

/-- The call `recv(fd, buf, len, MSG_WAITALL)` on a connection that will still deliver
`stream`: the bytes received (fewer than `len` when the stream ends first) and the
bytes left. -/
def recv (stream : List Byte) (len : Nat) : List Byte × List Byte :=
  (stream.take len, stream.drop len)

/-- The value `ntohs(*(uint16_t*)&header[k])` for the two bytes at `header[k]`,
`header[k+1]`. -/
def ntohs (b0 b1 : Byte) : Nat := b0.val * 256 + b1.val

/-- Byte `k` of a receive buffer. -/
def byteAt (buf : List Byte) (k : Nat) : Byte := buf.getD k 0

/-- Element `k` of a `float` receive buffer, widened to `double`. -/
def floatAt (ops : FloatOps F) (buf : List Byte) (k : Nat) : F :=
  ops.ofF32 (byteAt buf (4 * k)) (byteAt buf (4 * k + 1)) (byteAt buf (4 * k + 2))
    (byteAt buf (4 * k + 3))

/-- Progress of `owl_fetch_frame`: the frame as written so far, the bytes not yet
consumed, and whether a short read made the function return. -/
structure FetchState (F : Type) where
  bodies : phasespace_bodies F
  stream : List Byte
  returned : Bool

/-- The marker loop of `owl_fetch_frame`, `for (int i = 0; i < num_markers; i++)`, with
`remaining = num_markers - i` iterations to go. -/
def fetch_markers (ops : FloatOps F) :
    Nat → Nat → phasespace_bodies F → List Byte → FetchState F
  | 0, _, bodies, stream => { bodies := bodies, stream := stream, returned := false }
  | remaining + 1, i, bodies, stream =>
    let r1 := recv stream 12
    if r1.1.length ≠ 12 then
      { bodies := bodies, stream := r1.2, returned := true }
    else
      let r2 := recv r1.2 4
      if r2.1.length ≠ 4 then
        { bodies := bodies, stream := r2.2, returned := true }
      else
        let m := bodies.markers.getD i (zero_marker ops)
        let m1 : phasespace_marker_s F :=
          { m with
            id := (i : Int) + 1,
            x := floatAt ops r1.1 0,
            y := floatAt ops r1.1 1,
            z := floatAt ops r1.1 2,
            cond := floatAt ops r2.1 0 }
        fetch_markers ops remaining (i + 1)
          { bodies with markers := bodies.markers.set i m1 } r2.2

/-- The rigid-body loop of `owl_fetch_frame`, `for (int i = 0; i < num_rigids; i++)`,
with `remaining = num_rigids - i` iterations to go. -/
def fetch_rigids (ops : FloatOps F) :
    Nat → Nat → phasespace_bodies F → List Byte → FetchState F
  | 0, _, bodies, stream => { bodies := bodies, stream := stream, returned := false }
  | remaining + 1, i, bodies, stream =>
    let r := recv stream 32
    if r.1.length ≠ 32 then
      { bodies := bodies, stream := r.2, returned := true }
    else
      let b := bodies.rigids.getD i (zero_rigid ops)
      let b1 : phasespace_rigid_s F :=
        { b with
          id := (i : Int) + 1,
          x := floatAt ops r.1 0,
          y := floatAt ops r.1 1,
          z := floatAt ops r.1 2,
          qw := floatAt ops r.1 3,
          qx := floatAt ops r.1 4,
          qy := floatAt ops r.1 5,
          qz := floatAt ops r.1 6,
          cond := floatAt ops r.1 7 }
      fetch_rigids ops remaining (i + 1)
        { bodies with rigids := bodies.rigids.set i b1 } r.2

/-- The function `owl_fetch_frame(server, bodies)`: `bodies` is the frame the pointer
designates before the call, `stream` the bytes the connection will still deliver. The
result is the frame after the call and the bytes left on the connection. -/
def owl_fetch_frame (ops : FloatOps F) (server : Option phasespace_server_s)
    (bodies : phasespace_bodies F) (stream : List Byte) :
    phasespace_bodies F × List Byte :=
  match server with
  | none => (bodies, stream)
  | some srv =>
    if srv.fd < 0 then (bodies, stream)
    else
      let b0 := zero_bodies ops
      let h := recv stream 8
      if h.1.length ≠ 8 then (b0, h.2)
      else
        let num_markers := ntohs (byteAt h.1 0) (byteAt h.1 1)
        let num_rigids := ntohs (byteAt h.1 2) (byteAt h.1 3)
        let num_markers := if num_markers > OWL_MAX_MARKERS then OWL_MAX_MARKERS
          else num_markers
        let num_rigids := if num_rigids > OWL_MAX_RIGIDS then OWL_MAX_RIGIDS
          else num_rigids
        let b1 := { b0 with num_markers := num_markers, num_rigids := num_rigids }
        let sm := fetch_markers ops num_markers 0 b1 h.2
        if sm.returned then (sm.bodies, sm.stream)
        else
          let sr := fetch_rigids ops num_rigids 0 sm.bodies sm.stream
          (sr.bodies, sr.stream)

end Decoder

/-! ## Asynchronous logger (phasespace_c_types.h, phasespace_codels.c, owl.c) -/

/-- The fields of `struct aiocb` the logger uses. `aio_buf` always designates the
logger's own staging buffer and is therefore not a field. -/
structure aiocb where
  aio_fildes : Int
  aio_offset : Int
  aio_nbytes : Nat
deriving DecidableEq

/-- The struct `phasespace_log_s`. The field `prev_bodies`, which `owl_log` reads and
writes, is absent from the declaration in phasespace_c_types.h; it is taken here as a
member of the struct, so that `memset` in `phsp_log_start` zeroes it as well. -/
structure phasespace_log_s (F : Type) where
  req : aiocb
  path : List Char
  buffer : List Char
  pending : Bool
  skipped : Bool
  decimation : Nat
  missed : Nat
  total : Nat
  prev_bodies : phasespace_bodies F
deriving DecidableEq

/-- What a logger call does to the outside world, in program order. The write records
the descriptor, the file offset and the `aio_nbytes` bytes of the staging buffer handed
to `aio_write`, together with the value `aio_write` returned (`0`: request queued).
`open_file` is a call of `open` for writing with `O_CREAT | O_TRUNC`, with or without
`O_APPEND`, and the value it returned. -/
inductive Effect where
  | open_file (path : List Char) (append : Bool) (rc : Int)
  | warnx (msg : List Char)
  | close (fd : Int)
  | aio_write (fd : Int) (offset : Int) (bytes : List Char) (rc : Int)
deriving DecidableEq

/-- What the operating system answers during one `owl_log` call: the values returned by
`aio_error(&log->req)`, `aio_return(&log->req)` and `aio_write(&log->req)`. -/
structure AioEnv where
  aio_error : Int
  aio_return : Int
  aio_write : Int
deriving DecidableEq

/-- The errno value `EINPROGRESS`. -/
def EINPROGRESS : Int := 115

/-- The size of the staging buffer, `sizeof(log->buffer)`. -/
def LOG_BUFFER_SIZE : Nat := 4096

/-- The size of the path field, `sizeof(log->path)`. -/
def LOG_PATH_SIZE : Nat := 1024

/-- The NUL character. -/
def NUL : Char := Char.ofNat 0

/-- The call `snprintf(buffer + ptr, rem, ...)` when the complete formatted text is
`text`: at most `rem - 1` characters and a terminating NUL are stored, nothing when
`rem` is zero; the value returned is the length of the complete text. -/
def snprintf (buffer : List Char) (ptr rem : Nat) (text : List Char) : List Char × Nat :=
  if rem = 0 then (buffer, text.length)
  else
    let stored := text.take (rem - 1) ++ [NUL]
    (buffer.take ptr ++ stored ++ buffer.drop (ptr + stored.length), text.length)

/-- The conversion `(uint64_t)time` printed with `PRIu64`. -/
def fmt_u64 (time : Int) : List Char := Nat.toDigits 10 (time % (2 ^ 64 : Int)).toNat

section Logger

variable {F : Type}

/-- The text of one marker line,
`"marker %" PRIu64 ".%09d %g %g %g 0 0 0 %g %g\n"` with the nanosecond argument `0`. -/
def marker_line (ops : FloatOps F) (m : phasespace_marker_s F) (noise : F) : List Char :=
  "marker ".toList ++ fmt_u64 m.time ++ ".000000000 ".toList
    ++ ops.fmtG m.x ++ " ".toList ++ ops.fmtG m.y ++ " ".toList ++ ops.fmtG m.z
    ++ " 0 0 0 ".toList ++ ops.fmtG m.cond ++ " ".toList ++ ops.fmtG noise ++ "\n".toList

/-- The text of one rigid-body line,
`"rigid %" PRIu64 ".%09d %g %g %g %g %g %g %g %g\n"` with the nanosecond argument `0`. -/
def rigid_line (ops : FloatOps F) (r : phasespace_rigid_s F) (roll pitch yaw noise : F) :
    List Char :=
  "rigid ".toList ++ fmt_u64 r.time ++ ".000000000 ".toList
    ++ ops.fmtG r.x ++ " ".toList ++ ops.fmtG r.y ++ " ".toList ++ ops.fmtG r.z
    ++ " ".toList ++ ops.fmtG roll ++ " ".toList ++ ops.fmtG pitch ++ " ".toList
    ++ ops.fmtG yaw ++ " ".toList ++ ops.fmtG r.cond ++ " ".toList ++ ops.fmtG noise
    ++ "\n".toList

/-- The distance `sqrt(dx*dx + dy*dy + dz*dz)`. -/
def dist3 (ops : FloatOps F) (dx dy dz : F) : F :=
  ops.sqrt (ops.add (ops.add (ops.mul dx dx) (ops.mul dy dy)) (ops.mul dz dz))

/-- The variable `noise` of the marker loop of `owl_log` for index `i`. -/
def marker_noise (ops : FloatOps F) (prev : phasespace_bodies F) (i : Nat)
    (m : phasespace_marker_s F) : F :=
  if i < prev.num_markers then
    let p := prev.markers.getD i (zero_marker ops)
    dist3 ops (ops.sub m.x p.x) (ops.sub m.y p.y) (ops.sub m.z p.z)
  else ops.zero

/-- The variable `noise` of the rigid-body loop of `owl_log` for index `i`. -/
def rigid_noise (ops : FloatOps F) (prev : phasespace_bodies F) (i : Nat)
    (r : phasespace_rigid_s F) : F :=
  if i < prev.num_rigids then
    let p := prev.rigids.getD i (zero_rigid ops)
    dist3 ops (ops.sub r.x p.x) (ops.sub r.y p.y) (ops.sub r.z p.z)
  else ops.zero

/-- The variable `roll` of `owl_log`: `atan2(2*(qw*qx + qy*qz), 1 - 2*(qx*qx + qy*qy))`. -/
def euler_roll (ops : FloatOps F) (qw qx qy qz : F) : F :=
  ops.atan2 (ops.mul ops.two (ops.add (ops.mul qw qx) (ops.mul qy qz)))
    (ops.sub ops.one (ops.mul ops.two (ops.add (ops.mul qx qx) (ops.mul qy qy))))

/-- The variable `pitch` of `owl_log`: `asin(fmax(fmin(2*(qw*qy - qz*qx), 1.0), -1.0))`. -/
def euler_pitch (ops : FloatOps F) (qw qx qy qz : F) : F :=
  ops.asin (ops.fmax
    (ops.fmin (ops.mul ops.two (ops.sub (ops.mul qw qy) (ops.mul qz qx))) ops.one)
    (ops.neg ops.one))

/-- The variable `yaw` of `owl_log`: `atan2(2*(qw*qz + qx*qy), 1 - 2*(qy*qy + qz*qz))`. -/
def euler_yaw (ops : FloatOps F) (qw qx qy qz : F) : F :=
  ops.atan2 (ops.mul ops.two (ops.add (ops.mul qw qz) (ops.mul qx qy)))
    (ops.sub ops.one (ops.mul ops.two (ops.add (ops.mul qy qy) (ops.mul qz qz))))

/-- The line `owl_log` formats for marker `i` of `bodies`. -/
def marker_text (ops : FloatOps F) (prev bodies : phasespace_bodies F) (i : Nat) :
    List Char :=
  let m := bodies.markers.getD i (zero_marker ops)
  marker_line ops m (marker_noise ops prev i m)

/-- The line `owl_log` formats for rigid body `i` of `bodies`. -/
def rigid_text (ops : FloatOps F) (prev bodies : phasespace_bodies F) (i : Nat) :
    List Char :=
  let r := bodies.rigids.getD i (zero_rigid ops)
  rigid_line ops r (euler_roll ops r.qw r.qx r.qy r.qz) (euler_pitch ops r.qw r.qx r.qy r.qz)
    (euler_yaw ops r.qw r.qx r.qy r.qz) (rigid_noise ops prev i r)

/-- The cursor of the formatting loops of `owl_log`: the staging buffer, the offset
`bufptr - log->buffer` and `bufrem`. -/
structure FmtState where
  buffer : List Char
  bufptr : Nat
  bufrem : Nat
deriving DecidableEq

/-- One of the two formatting loops of `owl_log`, `for (size_t i = 0; i < count; i++)`,
with `remaining = count - i` iterations to go and `text i` the line formatted at
index `i`; the loop is left by `break` when the line does not fit. -/
def fmt_loop (text : Nat → List Char) : Nat → Nat → FmtState → FmtState
  | 0, _, st => st
  | remaining + 1, i, st =>
    let r := snprintf st.buffer st.bufptr st.bufrem (text i)
    let n := r.2
    if n ≤ 0 ∨ n ≥ st.bufrem then { st with buffer := r.1 }
    else fmt_loop text remaining (i + 1)
      { buffer := r.1, bufptr := st.bufptr + n, bufrem := st.bufrem - n }

/-- The two formatting loops of `owl_log` run on the staging buffer `buffer`. -/
def format_frame (ops : FloatOps F) (prev bodies : phasespace_bodies F)
    (buffer : List Char) : FmtState :=
  let st0 : FmtState := { buffer := buffer, bufptr := 0, bufrem := LOG_BUFFER_SIZE }
  let st1 := fmt_loop (marker_text ops prev bodies) bodies.num_markers 0 st0
  fmt_loop (rigid_text ops prev bodies) bodies.num_rigids 0 st1

/-- The C string held by a character array: the characters before the first NUL. -/
def cstr (buf : List Char) : List Char := buf.takeWhile (fun c => c != NUL)

/-- The message of `warnx("log %s", log->path)`. -/
def warn_log (path : List Char) : List Char := "log ".toList ++ cstr path

/-- The function `owl_log(log, bodies)` for non-null `log` and `bodies` (with a null
pointer the call returns at once and there is no logger state to speak of). The result
is the logger state after the call and the effects of the call, or `none` when the
call evaluates `log->total % log->decimation` with a zero `decimation`, which is
undefined in C. -/
def owl_log (ops : FloatOps F) (env : AioEnv) (log : phasespace_log_s F)
    (bodies : phasespace_bodies F) : Option (phasespace_log_s F × List Effect) :=
  if log.req.aio_fildes < 0 then some (log, [])
  else
    let log := { log with total := (log.total + 1) % SIZE_MOD }
    if log.decimation = 0 then none
    else if log.total % log.decimation ≠ 0 then some (log, [])
    else if log.pending ∧ env.aio_error = EINPROGRESS then
      some ({ log with skipped := true, missed := (log.missed + 1) % SIZE_MOD }, [])
    else
      let checked : phasespace_log_s F × List Effect :=
        if log.pending then
          if env.aio_return ≤ 0 then
            ({ log with pending := false, req := { log.req with aio_fildes := -1 } },
              [Effect.warnx (warn_log log.path), Effect.close log.req.aio_fildes])
          else ({ log with pending := false }, [])
        else (log, [])
      let log1 := checked.1
      let st := format_frame ops log1.prev_bodies bodies log1.buffer
      let log2 := { log1 with buffer := st.buffer,
                              req := { log1.req with aio_nbytes := st.bufptr } }
      let w := Effect.aio_write log2.req.aio_fildes log2.req.aio_offset
        (log2.buffer.take log2.req.aio_nbytes) env.aio_write
      let submitted : phasespace_log_s F × List Effect :=
        if env.aio_write ≠ 0 then
          ({ log2 with req := { log2.req with aio_fildes := -1 } },
            [w, Effect.warnx (warn_log log2.path), Effect.close log2.req.aio_fildes])
        else ({ log2 with pending := true, skipped := false }, [w])
      some ({ submitted.1 with prev_bodies := bodies }, checked.2 ++ submitted.2)

/-! ## phsp_log_start (phasespace_codels.c) -/

/-- The events a codel returns to the component runtime. `phasespace_e_sys` carries the
text handed to `phsp_e_sys_error`. -/
inductive genom_event where
  | genom_ok
  | phasespace_e_sys (what : List Char)
  | phasespace_pause_poll
  | phasespace_poll
  | phasespace_recv
  | phasespace_err
  | phasespace_ether
deriving DecidableEq

/-- What the operating system answers during `phsp_log_start`: whether `malloc`
succeeds, and the values returned by `open` and `aio_write`. -/
structure StartEnv where
  malloc_ok : Bool
  open_fd : Int
  aio_write : Int
deriving DecidableEq

/-- The macro `phsp_log_header` of phasespace_c_types.h. -/
def phsp_log_header : List Char := "name ts  x y z  roll pitch yaw".toList

/-- The logger state left by `memset(*log, 0, sizeof(phasespace_log_s))`. -/
def zero_log (ops : FloatOps F) : phasespace_log_s F :=
  { req := { aio_fildes := 0, aio_offset := 0, aio_nbytes := 0 },
    path := List.replicate LOG_PATH_SIZE NUL,
    buffer := List.replicate LOG_BUFFER_SIZE NUL,
    pending := false, skipped := false, decimation := 0, missed := 0, total := 0,
    prev_bodies := zero_bodies ops }

/-- The codel `phsp_log_start(path, decimation, log, self)` for non-null `path` and
`log`; the argument `log` is the content of `*log` before the call. The result is the
event returned, the content of `*log` after the call and the effects of the call. -/
def phsp_log_start (ops : FloatOps F) (env : StartEnv) (path : List Char)
    (decimation : Nat) (log : Option (phasespace_log_s F)) :
    genom_event × Option (phasespace_log_s F) × List Effect :=
  if log.isNone ∧ env.malloc_ok = false then
    (genom_event.phasespace_e_sys "Memory allocation failed".toList, none, [])
  else
    let l0 := zero_log ops
    let l1 := { l0 with path := (snprintf l0.path 0 LOG_PATH_SIZE path).1,
                        decimation := if decimation < 1 then 1 else decimation }
    let fd := env.open_fd
    let opened := Effect.open_file path false fd
    if fd < 0 then (genom_event.phasespace_e_sys path, some l1, [opened])
    else
      let l2 := { l1 with req := { aio_fildes := fd, aio_offset := 0, aio_nbytes := 0 },
                          pending := false, skipped := false, missed := 0, total := 0 }
      let r := snprintf l2.buffer 0 LOG_BUFFER_SIZE (phsp_log_header ++ "\n".toList)
      let l3 := { l2 with buffer := r.1 }
      if r.2 ≤ 0 then
        (genom_event.phasespace_e_sys "Failed to format log header".toList, some l3,
          [opened, Effect.close fd])
      else
        let l4 := { l3 with req := { l3.req with aio_nbytes := r.2 } }
        let w := Effect.aio_write l4.req.aio_fildes l4.req.aio_offset
          (l4.buffer.take l4.req.aio_nbytes) env.aio_write
        if env.aio_write ≠ 0 then
          (genom_event.phasespace_e_sys "Failed to write log header".toList, some l4,
            [opened, w, Effect.close fd])
        else (genom_event.genom_ok, some { l4 with pending := true }, [opened, w])

/-! ## phsp_publish_recv (phasespace_publish_codels.c) -/

/-- The value of `evt->type_id`. -/
inductive EventType where
  | FRAME
  | ERROR
  | OTHER
deriving DecidableEq

/-- A marker of an event. Modelled from the spec: the event type of the tracking library
is not declared in the repository; the fields are those `phsp_publish_recv` reads. -/
structure EventMarker (F : Type) where
  id : Int
  flags : Int
  time : Int
  x : F
  y : F
  z : F
  cond : F
deriving DecidableEq

/-- A rigid body of an event, `pose` holding x, y, z, qw, qx, qy, qz. Modelled from the
spec: the event type of the tracking library is not declared in the repository; the
fields are those `phsp_publish_recv` reads. -/
structure EventRigid (F : Type) where
  id : Int
  flags : Int
  time : Int
  pose : List F
  cond : F
deriving DecidableEq

/-- An event returned by `owl_nextEvent`. Modelled from the spec: the event type of the
tracking library is not declared in the repository; the fields are those
`phsp_publish_recv` reads, the two counts being unsigned. -/
structure Event (F : Type) where
  type_id : EventType
  num_markers : Nat
  markers : List (EventMarker F)
  num_rigids : Nat
  rigids : List (EventRigid F)
deriving DecidableEq

/-- The body of the marker copy loop of `phsp_publish_recv` at index `i`. -/
def copy_marker (ops : FloatOps F) (evt : Event F) (bodies : phasespace_bodies F)
    (i : Nat) : phasespace_bodies F :=
  let e := evt.markers.getD i
    { id := 0, flags := 0, time := 0, x := ops.zero, y := ops.zero, z := ops.zero,
      cond := ops.zero }
  let m : phasespace_marker_s F :=
    { id := e.id, flags := e.flags, time := e.time, x := e.x, y := e.y, z := e.z,
      cond := e.cond }
  { bodies with markers := bodies.markers.set i m }

/-- The body of the rigid-body copy loop of `phsp_publish_recv` at index `i`. -/
def copy_rigid (ops : FloatOps F) (evt : Event F) (bodies : phasespace_bodies F)
    (i : Nat) : phasespace_bodies F :=
  let e := evt.rigids.getD i
    { id := 0, flags := 0, time := 0, pose := [], cond := ops.zero }
  let r : phasespace_rigid_s F :=
    { id := e.id, flags := e.flags, time := e.time,
      x := e.pose.getD 0 ops.zero, y := e.pose.getD 1 ops.zero,
      z := e.pose.getD 2 ops.zero, qw := e.pose.getD 3 ops.zero,
      qx := e.pose.getD 4 ops.zero, qy := e.pose.getD 5 ops.zero,
      qz := e.pose.getD 6 ops.zero, cond := e.cond }
  { bodies with rigids := bodies.rigids.set i r }

/-- The `FRAME` branch of `phsp_publish_recv`: both counts are taken from the event and
clamped, and the entries below the clamped counts are copied. -/
def recv_frame (ops : FloatOps F) (evt : Event F) (bodies : phasespace_bodies F) :
    phasespace_bodies F :=
  let nm := evt.num_markers
  let nm := if nm > PHASESPACE_MAX_MARKERS then PHASESPACE_MAX_MARKERS else nm
  let b1 := (List.range nm).foldl (copy_marker ops evt) { bodies with num_markers := nm }
  let nr := evt.num_rigids
  let nr := if nr > PHASESPACE_MAX_RIGIDS then PHASESPACE_MAX_RIGIDS else nr
  (List.range nr).foldl (copy_rigid ops evt) { b1 with num_rigids := nr }

/-- The result of a `phsp_publish_recv` step. -/
structure RecvResult (F : Type) where
  event : genom_event
  log : Option (phasespace_log_s F)
  bodies : phasespace_bodies F
  effects : List Effect

/-- The call `owl_log(*log)` made by `phsp_publish_recv`, logging the frame held in
`bodies`; with `*log == NULL` the call returns at once. -/
def recv_log (ops : FloatOps F) (env : AioEnv) (log : Option (phasespace_log_s F))
    (bodies : phasespace_bodies F) : Option (Option (phasespace_log_s F) × List Effect) :=
  match log with
  | none => some (none, [])
  | some l => (owl_log ops env l bodies).map (fun r => (some r.1, r.2))

/-- The codel `phsp_publish_recv(server, log, bodies, self)`; `evt` is what
`owl_nextEvent(server->ctx, 0)` returns, `none` for a null event. The result is `none`
when the logger call is undefined (see `owl_log`). -/
def phsp_publish_recv (ops : FloatOps F) (env : AioEnv) (evt : Option (Event F))
    (log : Option (phasespace_log_s F)) (bodies : phasespace_bodies F) :
    Option (RecvResult F) :=
  match evt with
  | none => some { event := genom_event.phasespace_poll, log := log, bodies := bodies,
                   effects := [] }
  | some e =>
    if e.type_id = EventType.FRAME then
      let b := recv_frame ops e bodies
      (recv_log ops env log b).map (fun r =>
        { event := genom_event.phasespace_poll, log := r.1, bodies := b, effects := r.2 })
    else if e.type_id = EventType.ERROR then
      (recv_log ops env log bodies).map (fun r =>
        { event := genom_event.phasespace_e_sys [], log := r.1, bodies := bodies,
          effects := r.2 })
    else
      (recv_log ops env log bodies).map (fun r =>
        { event := genom_event.phasespace_poll, log := r.1, bodies := bodies,
          effects := r.2 })

/-! ## Runs of the logger -/

/-- Successive `owl_log` calls, one per element of `calls` (the environment and the
frame of each call), from logger state `log`: the final state and the effects of each
call, or `none` when one of the calls is undefined. -/
def owl_log_seq (ops : FloatOps F) :
    List (AioEnv × phasespace_bodies F) → phasespace_log_s F →
      Option (phasespace_log_s F × List (List Effect))
  | [], log => some (log, [])
  | c :: cs, log =>
    (owl_log ops c.1 log c.2).bind fun r =>
      (owl_log_seq ops cs r.1).map fun rest => (rest.1, r.2 :: rest.2)

end Logger

/-- Whether an effect is a call of `aio_write`. -/
def Effect.isWrite : Effect → Bool
  | Effect.aio_write _ _ _ _ => true
  | _ => false

/-- Whether an effect is a call of `aio_write` that queued its request. -/
def Effect.isQueued : Effect → Bool
  | Effect.aio_write _ _ _ rc => decide (rc = 0)
  | _ => false

/-- The bytes handed to `aio_write` by an effect, none for any other effect. -/
def Effect.bytes : Effect → List Char
  | Effect.aio_write _ _ bytes _ => bytes
  | _ => []

/-- The descriptor, offset, byte count and return value of an `aio_write` call. -/
def Effect.request : Effect → Option (Int × Int × Nat × Int)
  | Effect.aio_write fd offset bytes rc => some (fd, offset, bytes.length, rc)
  | _ => none

/-- The `aio_write` calls among the effects. -/
def writes (effects : List Effect) : List Effect := effects.filter Effect.isWrite

/-- The `aio_write` calls among the effects that queued their request. -/
def queued_writes (effects : List Effect) : List Effect := effects.filter Effect.isQueued

/-! ### The log file -/

/-- The log file: whether its descriptor was opened with `O_APPEND`, and its content. -/
structure LogFile where
  append : Bool
  content : List Char
deriving DecidableEq

/-- A write of `bytes` at absolute position `offset`, the gap past the end of the file,
if any, being filled with NUL. -/
def pwrite (content : List Char) (offset : Nat) (bytes : List Char) : List Char :=
  let padded := content ++ List.replicate (offset - content.length) NUL
  padded.take offset ++ bytes ++ padded.drop (offset + bytes.length)

/-- The file after an effect whose write, if it queued one, completes in full: without
`O_APPEND` the bytes go to the absolute position `aio_offset`, with `O_APPEND` to the
end of the file; `open` with `O_TRUNC` empties the file. -/
def file_effect (file : LogFile) : Effect → LogFile
  | Effect.open_file _ append rc =>
    if rc < 0 then file else { append := append, content := [] }
  | Effect.aio_write fd offset bytes rc =>
    if rc = 0 ∧ 0 ≤ fd then
      if file.append then { file with content := file.content ++ bytes }
      else { file with content := pwrite file.content offset.toNat bytes }
    else file
  | _ => file

/-- The log file after the effects, every queued write completing in full and in the
order of submission. -/
def file_after (effects : List Effect) : LogFile :=
  effects.foldl file_effect { append := false, content := [] }

/-- The number of newline-terminated lines of a text: its number of newline characters. -/
def count_lines (text : List Char) : Nat := text.count (Char.ofNat 10)

/-! ### The asynchronous I/O subsystem -/

/-- The state of the asynchronous I/O subsystem as far as the logger's control block is
concerned: how many requests were queued through it so far (request `k` being the
`k`-th queued, from 0), which of them are still in progress, and whether a request was
ever queued while another one was in progress. -/
structure AioKernel where
  queued : Nat
  inflight : List Nat
  overlap : Bool
deriving DecidableEq

/-- What happens around one `owl_log` call: the requests that complete before the call,
the values `aio_error` reports for a finished request, `aio_return` and `aio_write`
return, and the frame passed to the call. -/
structure Tick (F : Type) where
  completes : Nat → Bool
  aio_error : Int
  aio_return : Int
  aio_write : Int
  bodies : phasespace_bodies F

/-- The subsystem before any request. -/
def kernel_init : AioKernel := { queued := 0, inflight := [], overlap := false }

/-- Completion of the requests selected by `completes`. -/
def kernel_complete (k : AioKernel) (completes : Nat → Bool) : AioKernel :=
  { k with inflight := k.inflight.filter (fun id => !completes id) }

/-- The value of `aio_error(&log->req)`: `EINPROGRESS` exactly when the request queued
last through the control block is still in progress, otherwise the completion status
`status`. -/
def kernel_aio_error (k : AioKernel) (status : Int) : Int :=
  if 0 < k.queued ∧ (k.queued - 1) ∈ k.inflight then EINPROGRESS
  else if status = EINPROGRESS then 0 else status

/-- The subsystem after an effect: an `aio_write` that returned 0 queues a request. -/
def kernel_effect (k : AioKernel) : Effect → AioKernel
  | Effect.aio_write _ _ _ rc =>
    if rc = 0 then
      { queued := k.queued + 1, inflight := k.queued :: k.inflight,
        overlap := k.overlap || !k.inflight.isEmpty }
    else k
  | _ => k

section System

variable {F : Type}

/-- One `owl_log` call against the subsystem. -/
def system_step (ops : FloatOps F) (tick : Tick F) (st : phasespace_log_s F × AioKernel) :
    Option (phasespace_log_s F × AioKernel) :=
  let k1 := kernel_complete st.2 tick.completes
  let env : AioEnv :=
    { aio_error := kernel_aio_error k1 tick.aio_error,
      aio_return := tick.aio_return,
      aio_write := tick.aio_write }
  match owl_log ops env st.1 tick.bodies with
  | none => none
  | some r => some (r.1, r.2.foldl kernel_effect k1)

/-- Successive `owl_log` calls against the subsystem. -/
def system_run (ops : FloatOps F) :
    List (Tick F) → phasespace_log_s F × AioKernel → Option (phasespace_log_s F × AioKernel)
  | [], st => some st
  | t :: ts, st =>
    match system_step ops t st with
    | none => none
    | some st1 => system_run ops ts st1

end System

/-! ## An instance of the floating-point primitives

The doubles with an integer value of magnitude below `2 ^ 53`, which `double` arithmetic
treats exactly; `none` stands for every other value. On this fragment `%g` prints a value
of magnitude below `10 ^ 6` as a plain decimal integer. The instance is used to evaluate
the definitions on concrete frames whose fields are small integers. -/

/-- A result kept only when it stays in the exactly represented range. -/
def zfit (v : Int) : Option Int := if v.natAbs < 2 ^ 53 then some v else none

/-- The exact square root of a perfect square. -/
def zsqrt (v : Int) : Option Int :=
  if v < 0 then none
  else ((List.range (v.toNat + 1)).find? (fun r => r * r = v.toNat)).map (fun r => (r : Int))

/-- An IEEE 754 single-precision value from its four bytes in little-endian memory
order, when that value is an integer. -/
def zofF32 (b0 b1 b2 b3 : Byte) : Option Int :=
  let bits := b0.val + 256 * b1.val + 65536 * b2.val + 16777216 * b3.val
  let sign : Int := if bits / 2 ^ 31 = 1 then -1 else 1
  let e := bits / 2 ^ 23 % 256
  let m := bits % 2 ^ 23
  if e = 0 then (if m = 0 then some 0 else none)
  else if e = 255 then none
  else if 150 ≤ e then some (sign * ((2 ^ 23 + m) * 2 ^ (e - 150) : Nat))
  else if (2 ^ 23 + m) % 2 ^ (150 - e) = 0 then
    some (sign * ((2 ^ 23 + m) / 2 ^ (150 - e) : Nat))
  else none

/-- What `%g` prints for an integer value of magnitude below `10 ^ 6`. -/
def zfmtG : Option Int → List Char
  | some v =>
    if v.natAbs < 10 ^ 6 then
      (if v < 0 then "-".toList else []) ++ Nat.toDigits 10 v.natAbs
    else "?".toList
  | none => "?".toList

/-- The floating-point primitives on the integer fragment. -/
def zops : FloatOps (Option Int) :=
  { zero := some 0, one := some 1, two := some 2,
    add := fun a b => (a.bind fun x => b.bind fun y => zfit (x + y)),
    sub := fun a b => (a.bind fun x => b.bind fun y => zfit (x - y)),
    mul := fun a b => (a.bind fun x => b.bind fun y => zfit (x * y)),
    sqrt := fun a => a.bind zsqrt,
    atan2 := fun a b => (a.bind fun y => b.bind fun x =>
      if y = 0 ∧ 0 < x then some 0 else none),
    asin := fun a => a.bind fun x => if x = 0 then some 0 else none,
    fmax := fun a b => (a.bind fun x => b.bind fun y => some (max x y)),
    fmin := fun a b => (a.bind fun x => b.bind fun y => some (min x y)),
    neg := fun a => a.map fun x => -x,
    ofF32 := zofF32,
    fmtG := zfmtG }

/-! ## Reference descriptions used in the statements -/

/-- The clamped marker count announced by the header of `stream`: the big-endian
16-bit value of bytes 0 and 1, at most 128. -/
def header_markers (stream : List Byte) : Nat :=
  min ((stream.getD 0 0).val * 256 + (stream.getD 1 0).val) 128

/-- The clamped rigid-body count announced by the header of `stream`: the big-endian
16-bit value of bytes 2 and 3, at most 64. -/
def header_rigids (stream : List Byte) : Nat :=
  min ((stream.getD 2 0).val * 256 + (stream.getD 3 0).val) 64

section Wire

variable {F : Type}

/-- The frame `owl_fetch_frame` enters its record loops with: all zero but for the
two clamped counts. -/
def header_bodies (ops : FloatOps F) (stream : List Byte) : phasespace_bodies F :=
  { zero_bodies ops with
    num_markers := header_markers stream, num_rigids := header_rigids stream }

/-- The `float` stored in the four bytes of `stream` from offset `o`. -/
def wire_float (ops : FloatOps F) (stream : List Byte) (o : Nat) : F :=
  ops.ofF32 (stream.getD o 0) (stream.getD (o + 1) 0) (stream.getD (o + 2) 0)
    (stream.getD (o + 3) 0)

/-- Marker `i` as the wire format describes it: the 16-byte record at offset
`8 + 16 * i`, with the sequential identifier `i + 1`. -/
def wire_marker (ops : FloatOps F) (stream : List Byte) (i : Nat) : phasespace_marker_s F :=
  { id := (i : Int) + 1, flags := 0, time := 0,
    x := wire_float ops stream (8 + 16 * i),
    y := wire_float ops stream (8 + 16 * i + 4),
    z := wire_float ops stream (8 + 16 * i + 8),
    cond := wire_float ops stream (8 + 16 * i + 12) }

/-- Rigid body `i` as the wire format describes it: the 32-byte record at offset
`base + 32 * i`, `base` being the offset of the first rigid-body record, with the
sequential identifier `i + 1`. -/
def wire_rigid (ops : FloatOps F) (stream : List Byte) (base i : Nat) :
    phasespace_rigid_s F :=
  { id := (i : Int) + 1, flags := 0, time := 0,
    x := wire_float ops stream (base + 32 * i),
    y := wire_float ops stream (base + 32 * i + 4),
    z := wire_float ops stream (base + 32 * i + 8),
    qw := wire_float ops stream (base + 32 * i + 12),
    qx := wire_float ops stream (base + 32 * i + 16),
    qy := wire_float ops stream (base + 32 * i + 20),
    qz := wire_float ops stream (base + 32 * i + 24),
    cond := wire_float ops stream (base + 32 * i + 28) }

end Wire

/-- The number of marker records of `stream` that `owl_fetch_frame` reads in full. -/
def markers_read (stream : List Byte) : Nat :=
  min (header_markers stream) ((stream.length - 8) / 16)

/-- The number of rigid-body records of `stream` that `owl_fetch_frame` reads in full:
none unless every announced marker record was read. -/
def rigids_read (stream : List Byte) : Nat :=
  if 8 + 16 * header_markers stream ≤ stream.length then
    min (header_rigids stream) ((stream.length - (8 + 16 * header_markers stream)) / 32)
  else 0

/-! ## Concrete data used to evaluate the definitions -/

/-- A frame holding one marker at (5, 6, 7), as left by an earlier decode. -/
def sample_prior : phasespace_bodies (Option Int) :=
  { zero_bodies zops with
    num_markers := 1,
    markers := (zero_bodies zops).markers.set 0
      { id := 1, flags := 0, time := 0, x := some 5, y := some 6, z := some 7,
        cond := some 1 } }

/-- A header announcing one marker and no rigid body, followed by ten bytes only. -/
def sample_cut_stream : List Byte := [0, 1, 0, 0, 0, 0, 0, 0] ++ List.replicate 10 0

/-- A header announcing 256 markers and 200 rigid bodies. -/
def sample_big_header : List Byte := [1, 0, 0, 200, 0, 0, 0, 0]

/-- An event announcing 500 markers and 65 rigid bodies. -/
def sample_big_event : Event (Option Int) :=
  { type_id := EventType.FRAME, num_markers := 500, markers := [], num_rigids := 65,
    rigids := [] }

/-- The line `owl_log` formats for an all-zero marker with noise `0.0`. -/
def sample_zero_line : List Char := "marker 0.000000000 0 0 0 0 0 0 0 0\n".toList

/-- The all-zero frame with its marker count set to `n`. -/
def sample_markers (n : Nat) : phasespace_bodies (Option Int) :=
  { zero_bodies zops with num_markers := n }

/-- The logger state after `phsp_log_start` with decimation `d`, `open` returning
descriptor 3 and `aio_write` queuing the header. -/
def sample_started (d : Nat) : phasespace_log_s (Option Int) :=
  ((phsp_log_start zops { malloc_ok := true, open_fd := 3, aio_write := 0 }
    "motion_log.txt".toList d none).2.1).getD (zero_log zops)

/-- The logger state after `sample_started 1` and one `owl_log` call that found the
header write completed with result `-1` and whose own `aio_write` was refused. -/
def sample_failed : phasespace_log_s (Option Int) :=
  ((owl_log zops { aio_error := 0, aio_return := -1, aio_write := -1 }
    (sample_started 1) (sample_markers 0)).map (fun r => r.1)).getD (zero_log zops)

/-- The discipline that links a logger state to the asynchronous I/O subsystem: no two
requests ever overlapped, the decimation is at least 1, and a request is in progress
only if it is the one queued last and the logger has it marked pending. -/
def aio_consistent {F : Type} (log : phasespace_log_s F) (k : AioKernel) : Prop :=
  k.overlap = false ∧ 1 ≤ log.decimation ∧
  (k.inflight = [] ∨ (k.inflight = [k.queued - 1] ∧ 0 < k.queued ∧ log.pending = true))

/-- Two calls against the subsystem: the header write is still in progress at the
first, complete with result 31 at the second. -/
def sample_ticks : List (Tick (Option Int)) :=
  [{ completes := fun _ => false, aio_error := 0, aio_return := 0, aio_write := 0,
     bodies := sample_markers 2 },
   { completes := fun _ => true, aio_error := 0, aio_return := 31, aio_write := 0,
     bodies := sample_markers 2 }]

/-- The lines `text i`, `text (i + 1)`, ... `text (i + k - 1)` one after the other. -/
def concat_lines (text : Nat → List Char) : Nat → Nat → List Char
  | 0, _ => []
  | k + 1, i => text i ++ concat_lines text k (i + 1)

/-- A synthetic stream: a header announcing 2 markers and 1 rigid body, the marker
records (1, 2, 3, cond 1) and (4, 5, 6, cond 1), and the rigid-body record
(7, 8, 9, quaternion (1, 0, 0, 0), cond 1); every `float` is in the byte order of a
little-endian host, which is how `owl_fetch_frame` reads it. -/
def sample_stream : List Byte :=
  [0, 2, 0, 1, 0, 0, 0, 0,
   0, 0, 128, 63,  0, 0, 0, 64,  0, 0, 64, 64,  0, 0, 128, 63,
   0, 0, 128, 64,  0, 0, 160, 64,  0, 0, 192, 64,  0, 0, 128, 63,
   0, 0, 224, 64,  0, 0, 0, 65,  0, 0, 16, 65,
   0, 0, 128, 63,  0, 0, 0, 0,  0, 0, 0, 0,  0, 0, 0, 0,  0, 0, 128, 63]

/-- The frame `owl_fetch_frame` decodes from `sample_stream`. -/
def sample_frame : phasespace_bodies (Option Int) :=
  (owl_fetch_frame zops (some { fd := 4 }) (zero_bodies zops) sample_stream).1

/-- The effects of the `phsp_log_start` call that yields `sample_started d`. -/
def sample_start_effects (d : Nat) : List Effect :=
  (phsp_log_start zops { malloc_ok := true, open_fd := 3, aio_write := 0 }
    "motion_log.txt".toList d none).2.2

/-! ## owl_log_init (owl.c) -/

/-- The call `strncpy(dst, src, n)` for a source string `src` (without its NUL): the
first `n` characters of `src`, padded with NUL up to `n` characters. -/
def strncpy (dst src : List Char) (n : Nat) : List Char :=
  src.take n ++ List.replicate (n - src.length) NUL ++ dst.drop n

/-- The header line `owl_log_init` formats into the staging buffer. -/
def owl_log_init_header : List Char :=
  "name ts_sec ts_nsec x y z roll pitch yaw cond noise\n".toList

/-- The function `owl_log_init(log, path, decimation)` for non-null `log` and `path`.
The result is the logger state after the call and the effects of the call. -/
def owl_log_init {F : Type} (ops : FloatOps F) (env : StartEnv) (path : List Char)
    (decimation : Nat) : phasespace_log_s F × List Effect :=
  let l0 := zero_log ops
  let l1 := { l0 with path := strncpy l0.path path (LOG_PATH_SIZE - 1),
                      decimation := decimation,
                      req := { l0.req with aio_fildes := env.open_fd } }
  let opened := Effect.open_file path false env.open_fd
  if l1.req.aio_fildes < 0 then
    (l1, [opened, Effect.warnx ("Failed to open log file: ".toList ++ path)])
  else
    let l2 := { l1 with req := { l1.req with aio_offset := 0, aio_nbytes := 0 },
                        pending := false, skipped := false, missed := 0, total := 0 }
    let r := snprintf l2.buffer 0 LOG_BUFFER_SIZE owl_log_init_header
    let l3 := { l2 with buffer := r.1 }
    if 0 < r.2 then
      let l4 := { l3 with req := { l3.req with aio_nbytes := r.2 } }
      let w := Effect.aio_write l4.req.aio_fildes l4.req.aio_offset
        (l4.buffer.take l4.req.aio_nbytes) env.aio_write
      if env.aio_write ≠ 0 then
        (l4, [opened, w, Effect.warnx ("Failed to write log header: ".toList ++ path)])
      else ({ l4 with pending := true }, [opened, w])
    else (l3, [opened])

/-! ## owl_poll (owl.c), phsp_publish_poll and phsp_publish_err
(phasespace_publish_codels.c) -/

/-- What one call of `poll(fds, 1, t_ms)` answers: the value returned, `errno` after the
call, and the `revents` field of the descriptor. -/
structure PollOutcome where
  ret : Int
  errno : Int
  revents : Nat
deriving DecidableEq

/-- The errno value `EINTR`. -/
def EINTR : Int := 4

/-- The event bit `POLLIN`. -/
def POLLIN : Nat := 1

/-- The event bit `POLLHUP`. -/
def POLLHUP : Nat := 16

/-- The loop `do ret = poll(...); while (ret < 0 && errno == EINTR)`, the successive
calls of `poll` answering `outcomes` in order: the answer that ends the loop and the
answers not consumed, or `none` when every answer is an interruption and the loop is
still running when they are used up. -/
def poll_retry : List PollOutcome → Option (PollOutcome × List PollOutcome)
  | [] => none
  | o :: os => if o.ret < 0 ∧ o.errno = EINTR then poll_retry os else some (o, os)

/-- The struct `timeval`. -/
structure timeval where
  tv_sec : Int
  tv_usec : Int
deriving DecidableEq

/-- The timeout `owl_poll` passes to `poll`:
`timeout ? (timeout->tv_sec * 1000 + timeout->tv_usec / 1000) : -1`. -/
def owl_poll_ms (timeout : Option timeval) : Int :=
  match timeout with
  | none => -1
  | some tv => tv.tv_sec * 1000 + Int.tdiv tv.tv_usec 1000

/-- The function `owl_poll(server, timeout)`, the calls of `poll` answering `outcomes`:
the value returned, or `none` when the call does not return (the assertion
`server.fd >= 0` fails, or the retry loop does not end). -/
def owl_poll (server : phasespace_server_s) (outcomes : List PollOutcome) : Option Int :=
  if server.fd < 0 then none
  else
    match poll_retry outcomes with
    | none => none
    | some (o, _) =>
      if o.ret < 0 then some (-1)
      else if o.ret = 0 then some 0
      else if o.revents &&& POLLIN ≠ 0 then some 1
      else some 0

/-- The codel `phsp_publish_poll(server, self)`, the calls of `poll` answering
`outcomes`: the event returned and the answers not consumed, or `none` when the retry
loop does not end. -/
def phsp_publish_poll (server : Option phasespace_server_s)
    (outcomes : List PollOutcome) : Option (genom_event × List PollOutcome) :=
  match server with
  | none => some (genom_event.phasespace_pause_poll, outcomes)
  | some srv =>
    if srv.fd < 0 then some (genom_event.phasespace_pause_poll, outcomes)
    else
      match poll_retry outcomes with
      | none => none
      | some (o, rest) =>
        if o.ret < 0 then some (genom_event.phasespace_err, rest)
        else if o.ret = 0 then some (genom_event.phasespace_poll, rest)
        else if o.revents &&& POLLHUP ≠ 0 then some (genom_event.phasespace_err, rest)
        else some (genom_event.phasespace_recv, rest)

/-- The function `owl_disconnect(server)`: a non-null server has its descriptor closed,
when it is not negative, and is freed. -/
def owl_disconnect (server : Option phasespace_server_s) : List Effect :=
  match server with
  | none => []
  | some srv => if 0 ≤ srv.fd then [Effect.close srv.fd] else []

/-- The codel `phsp_publish_err(server, self)`; the argument is the content of `*server`
before the call. The result is the event returned, the content of `*server` after the
call and the effects of the call. -/
def phsp_publish_err (server : Option phasespace_server_s) :
    genom_event × Option phasespace_server_s × List Effect :=
  match server with
  | some srv => (genom_event.phasespace_pause_poll, none, owl_disconnect (some srv))
  | none => (genom_event.phasespace_pause_poll, none, [])

/-! ## my_set_all_rotor_velocity (rotor_speed.c) -/

/-- The two flags of `rotor_data[i].state` the dispatcher reads. -/
structure rotor_state_s where
  disabled : Bool
  emerg : Bool
deriving DecidableEq

/-- The fields of `struct mk_channel_s` the dispatcher reads, both `uint16_t`. -/
structure mk_channel_s where
  minid : Nat
  maxid : Nat
deriving DecidableEq

/-- The struct `rotorcraft_conn_s`: the channel array and its length `n`. -/
structure rotorcraft_conn_s where
  chan : List mk_channel_s
  n : Nat
deriving DecidableEq

/-- The events `my_set_all_rotor_velocity` returns; `rotorcraft_e_rotor_failure` carries
the field `id` of its detail. -/
inductive rotorcraft_event where
  | rotorcraft_ether
  | rotorcraft_e_connection
  | rotorcraft_e_rotor_failure (id : Nat)
deriving DecidableEq

/-- The comparison and the two bounds used to clamp a velocity: `lt a b` is `a < b` on
doubles, `lower` is `-2000.0` and `upper` is `2000.0`. -/
structure VelocityOps (F : Type) where
  lt : F → F → Bool
  lower : F
  upper : F

/-- One call `mk_send_msg(&conn->chan[m], "v%@", &vbuf[minid - 1], n)`: the channel
index `m`, the index `minid - 1` of the first element, the count `n`, and the `n`
elements of `vbuf` from that index (`none` for an index outside `vbuf`). -/
structure RotorCommand (F : Type) where
  chan : Nat
  first : Int
  count : Nat
  values : List (Option F)
deriving DecidableEq

section Rotor

variable {F : Type}

/-- The clamp of the dispatcher:
`v < -2000.0 ? -2000.0 : (v > 2000.0 ? 2000.0 : v)`. -/
def clamp_velocity (cmp : VelocityOps F) (v : F) : F :=
  if cmp.lt v cmp.lower then cmp.lower
  else if cmp.lt cmp.upper v then cmp.upper
  else v

/-- The first loop of `my_set_all_rotor_velocity`,
`for (i = 0; i < or_rotorcraft_max_rotors; i++)`, with `remaining` iterations to go and
`vbuf` holding the elements stored so far: the identifier `1 + i` of the rotor that made
the function return, or the complete `vbuf`. -/
def check_rotors (cmp : VelocityOps F) (rotor_data : Nat → rotor_state_s)
    (velocities : Nat → F) : Nat → Nat → List F → Except Nat (List F)
  | 0, _, vbuf => Except.ok vbuf
  | remaining + 1, i, vbuf =>
    if (rotor_data i).disabled || (rotor_data i).emerg then Except.error (1 + i)
    else
      check_rotors cmp rotor_data velocities remaining (i + 1)
        (vbuf ++ [clamp_velocity cmp (velocities i)])

/-- Element `j` of `vbuf`, `none` outside the array. -/
def vbuf_at (vbuf : List F) (j : Int) : Option F :=
  if 0 ≤ j then vbuf[j.toNat]? else none

/-- The body of the second loop of `my_set_all_rotor_velocity` for channel `m`. -/
def send_channel (conn : rotorcraft_conn_s) (vbuf : List F) (m : Nat) : RotorCommand F :=
  let c := conn.chan.getD m { minid := 0, maxid := 0 }
  let n := (((c.maxid : Int) - (c.minid : Int) + 1) % 65536).toNat
  let first : Int := (c.minid : Int) - 1
  { chan := m, first := first, count := n,
    values := (List.range n).map (fun k => vbuf_at vbuf (first + k)) }

/-- The codel `my_set_all_rotor_velocity(conn, rotor_data, velocities, self)`, the
constant `or_rotorcraft_max_rotors`, which the repository does not define, being the
argument `max_rotors`, and the two arrays being given by their element at each index.
The result is the event returned and the commands sent, in order. -/
def my_set_all_rotor_velocity (cmp : VelocityOps F) (max_rotors : Nat)
    (conn : Option rotorcraft_conn_s) (rotor_data : Nat → rotor_state_s)
    (velocities : Nat → F) : rotorcraft_event × List (RotorCommand F) :=
  match conn with
  | none => (rotorcraft_event.rotorcraft_e_connection, [])
  | some c =>
    match check_rotors cmp rotor_data velocities max_rotors 0 [] with
    | Except.error id => (rotorcraft_event.rotorcraft_e_rotor_failure id, [])
    | Except.ok vbuf =>
      (rotorcraft_event.rotorcraft_ether, (List.range c.n).map (send_channel c vbuf))

end Rotor

/-- Whether rotor slot `i` is disabled or in emergency. -/
def rotor_flagged (rotor_data : Nat → rotor_state_s) (i : Nat) : Bool :=
  (rotor_data i).disabled || (rotor_data i).emerg

/-- The comparison and bounds of the dispatcher on integer-valued velocities. -/
def zvel : VelocityOps Int :=
  { lt := fun a b => decide (a < b), lower := -2000, upper := 2000 }

/-- An event of type `ERROR`. -/
def sample_error_event : Event (Option Int) :=
  { type_id := EventType.ERROR, num_markers := 0, markers := [], num_rigids := 0,
    rigids := [] }

/-- Rotor states in which rotors 3 and 6 (indices 2 and 5) are flagged, the first
disabled and the second in emergency. -/
def sample_rotors (i : Nat) : rotor_state_s :=
  { disabled := decide (i = 2), emerg := decide (i = 5) }

/-- Rotor states in which no rotor is flagged. -/
def sample_rotors_ok (_ : Nat) : rotor_state_s := { disabled := false, emerg := false }

/-- Requested velocities: 1000, 3000, -3000, then 0. -/
def sample_velocities (i : Nat) : Int :=
  if i = 0 then 1000 else if i = 1 then 3000 else if i = 2 then -3000 else 0

/-- Two channels, for rotors 1 to 4 and 5 to 8. -/
def sample_conn : rotorcraft_conn_s :=
  { chan := [{ minid := 1, maxid := 4 }, { minid := 5, maxid := 8 }], n := 2 }

/-! ## Properties of the decoder -/

section DecoderLemmas

variable {F : Type}

theorem getD_set_self {α : Type} (l : List α) (i : Nat) (a d : α) (h : i < l.length) :
    (l.set i a).getD i d = a := by
  simp [List.getElem?_set, h]

theorem getD_set_other {α : Type} (l : List α) (i j : Nat) (a d : α) (h : i ≠ j) :
    (l.set i a).getD j d = l.getD j d := by
  simp [List.getElem?_set_ne h]

theorem byteAt_take (s : List Byte) (n k : Nat) (h : k < n) :
    byteAt (s.take n) k = s.getD k 0 := by
  simp [byteAt, List.getElem?_take, h]

theorem byteAt_drop_getD (s : List Byte) (o k : Nat) :
    (s.drop o).getD k 0 = s.getD (o + k) 0 := by
  simp [List.getElem?_drop]

theorem floatAt_take_drop (ops : FloatOps F) (s : List Byte) (o n k : Nat)
    (h : 4 * k + 3 < n) :
    floatAt ops ((s.drop o).take n) k = wire_float ops s (o + 4 * k) := by
  simp only [floatAt, wire_float]
  rw [byteAt_take _ _ _ (by omega), byteAt_take _ _ _ (by omega),
    byteAt_take _ _ _ (by omega), byteAt_take _ _ _ (by omega)]
  simp only [byteAt_drop_getD]
  rfl

theorem fetch_markers_counts (ops : FloatOps F) (n i : Nat) (b : phasespace_bodies F)
    (s : List Byte) :
    (fetch_markers ops n i b s).bodies.num_markers = b.num_markers ∧
    (fetch_markers ops n i b s).bodies.num_rigids = b.num_rigids := by
  induction n generalizing i b s with
  | zero => simp [fetch_markers]
  | succ n ih =>
    simp only [fetch_markers]
    split
    · simp
    · split
      · simp
      · exact ih _ _ _

theorem fetch_rigids_counts (ops : FloatOps F) (n i : Nat) (b : phasespace_bodies F)
    (s : List Byte) :
    (fetch_rigids ops n i b s).bodies.num_markers = b.num_markers ∧
    (fetch_rigids ops n i b s).bodies.num_rigids = b.num_rigids := by
  induction n generalizing i b s with
  | zero => simp [fetch_rigids]
  | succ n ih =>
    simp only [fetch_rigids]
    split
    · simp
    · exact ih _ _ _

theorem fetch_markers_num_markers (ops : FloatOps F) (n i : Nat) (b : phasespace_bodies F)
    (s : List Byte) : (fetch_markers ops n i b s).bodies.num_markers = b.num_markers :=
  (fetch_markers_counts ops n i b s).1

theorem fetch_markers_num_rigids (ops : FloatOps F) (n i : Nat) (b : phasespace_bodies F)
    (s : List Byte) : (fetch_markers ops n i b s).bodies.num_rigids = b.num_rigids :=
  (fetch_markers_counts ops n i b s).2

theorem fetch_rigids_num_markers (ops : FloatOps F) (n i : Nat) (b : phasespace_bodies F)
    (s : List Byte) : (fetch_rigids ops n i b s).bodies.num_markers = b.num_markers :=
  (fetch_rigids_counts ops n i b s).1

theorem fetch_rigids_num_rigids (ops : FloatOps F) (n i : Nat) (b : phasespace_bodies F)
    (s : List Byte) : (fetch_rigids ops n i b s).bodies.num_rigids = b.num_rigids :=
  (fetch_rigids_counts ops n i b s).2

theorem foldl_copy_marker_counts (ops : FloatOps F) (evt : Event F) (l : List Nat)
    (b : phasespace_bodies F) :
    (l.foldl (copy_marker ops evt) b).num_markers = b.num_markers ∧
    (l.foldl (copy_marker ops evt) b).num_rigids = b.num_rigids := by
  induction l generalizing b with
  | nil => simp
  | cons a l ih => simpa [copy_marker] using ih _

theorem foldl_copy_rigid_counts (ops : FloatOps F) (evt : Event F) (l : List Nat)
    (b : phasespace_bodies F) :
    (l.foldl (copy_rigid ops evt) b).num_markers = b.num_markers ∧
    (l.foldl (copy_rigid ops evt) b).num_rigids = b.num_rigids := by
  induction l generalizing b with
  | nil => simp
  | cons a l ih => simpa [copy_rigid] using ih _

/-- With a usable server and a complete header, `owl_fetch_frame` is the two record
loops run from the zeroed frame carrying the clamped counts. -/
theorem owl_fetch_frame_full_header (ops : FloatOps F) (srv : phasespace_server_s)
    (hfd : 0 ≤ srv.fd) (prior : phasespace_bodies F) (stream : List Byte)
    (hlen : 8 ≤ stream.length) :
    owl_fetch_frame ops (some srv) prior stream =
      if (fetch_markers ops (header_markers stream) 0 (header_bodies ops stream)
            (stream.drop 8)).returned then
        ((fetch_markers ops (header_markers stream) 0 (header_bodies ops stream)
            (stream.drop 8)).bodies,
         (fetch_markers ops (header_markers stream) 0 (header_bodies ops stream)
            (stream.drop 8)).stream)
      else
        ((fetch_rigids ops (header_rigids stream) 0
            (fetch_markers ops (header_markers stream) 0 (header_bodies ops stream)
              (stream.drop 8)).bodies
            (fetch_markers ops (header_markers stream) 0 (header_bodies ops stream)
              (stream.drop 8)).stream).bodies,
         (fetch_rigids ops (header_rigids stream) 0
            (fetch_markers ops (header_markers stream) 0 (header_bodies ops stream)
              (stream.drop 8)).bodies
            (fetch_markers ops (header_markers stream) 0 (header_bodies ops stream)
              (stream.drop 8)).stream).stream) := by
  have h8 : (recv stream 8).1.length = 8 := by simp [recv, hlen]
  have hb : ∀ k, k < 8 → byteAt (recv stream 8).1 k = stream.getD k 0 := by
    intro k hk
    simp [byteAt, recv, List.getElem?_take, hk]
  have hm : (if ntohs (stream.getD 0 0) (stream.getD 1 0) > 128 then 128
      else ntohs (stream.getD 0 0) (stream.getD 1 0)) = header_markers stream := by
    unfold header_markers ntohs; split <;> omega
  have hr : (if ntohs (stream.getD 2 0) (stream.getD 3 0) > 64 then 64
      else ntohs (stream.getD 2 0) (stream.getD 3 0)) = header_rigids stream := by
    unfold header_rigids ntohs; split <;> omega
  simp only [owl_fetch_frame, not_lt.mpr hfd, if_false, h8, ne_eq, not_true_eq_false]
  rw [hb 0 (by omega), hb 1 (by omega), hb 2 (by omega), hb 3 (by omega)]
  simp only [OWL_MAX_MARKERS, OWL_MAX_RIGIDS, hm, hr]
  rfl

theorem fetch_counts (ops : FloatOps F) (srv : phasespace_server_s) (hfd : 0 ≤ srv.fd)
    (prior : phasespace_bodies F) (stream : List Byte) (hlen : 8 ≤ stream.length) :
    (owl_fetch_frame ops (some srv) prior stream).1.num_markers = header_markers stream ∧
    (owl_fetch_frame ops (some srv) prior stream).1.num_rigids = header_rigids stream := by
  rw [owl_fetch_frame_full_header ops srv hfd prior stream hlen]
  split <;>
    simp [fetch_rigids_num_markers, fetch_rigids_num_rigids,
      fetch_markers_num_markers, fetch_markers_num_rigids, header_bodies]

theorem recv_frame_counts (ops : FloatOps F) (evt : Event F) (b : phasespace_bodies F) :
    (recv_frame ops evt b).num_markers = min evt.num_markers 128 ∧
    (recv_frame ops evt b).num_rigids = min evt.num_rigids 64 := by
  refine ⟨?_, ?_⟩
  · simp only [recv_frame, PHASESPACE_MAX_MARKERS, PHASESPACE_MAX_RIGIDS]
    rw [(foldl_copy_rigid_counts ops _ _ _).1, (foldl_copy_marker_counts ops _ _ _).1]
    show (if evt.num_markers > 128 then 128 else evt.num_markers) = _
    split <;> omega
  · simp only [recv_frame, PHASESPACE_MAX_MARKERS, PHASESPACE_MAX_RIGIDS]
    rw [(foldl_copy_rigid_counts ops _ _ _).2]
    show (if evt.num_rigids > 64 then 64 else evt.num_rigids) = _
    split <;> omega

theorem fetch_markers_short (ops : FloatOps F) (n i : Nat) (b : phasespace_bodies F)
    (s : List Byte) (h : s.length < 16) :
    (fetch_markers ops (n + 1) i b s).returned = true ∧
    (fetch_markers ops (n + 1) i b s).bodies = b := by
  rw [fetch_markers]
  simp only [recv, List.length_take, List.length_drop]
  split_ifs <;> first | exact ⟨rfl, rfl⟩ | omega

theorem fetch_markers_step (ops : FloatOps F) (n i : Nat) (b : phasespace_bodies F)
    (s : List Byte) (h : 16 ≤ s.length) :
    fetch_markers ops (n + 1) i b s =
      fetch_markers ops n (i + 1)
        { b with markers := (b.markers.set i
            { b.markers.getD i (zero_marker ops) with
              id := (i : Int) + 1,
              x := floatAt ops (s.take 12) 0,
              y := floatAt ops (s.take 12) 1,
              z := floatAt ops (s.take 12) 2,
              cond := floatAt ops ((s.drop 12).take 4) 0 }) }
        (s.drop 16) := by
  rw [fetch_markers]
  simp only [recv, List.length_take, List.length_drop, List.drop_drop]
  rw [if_neg (by omega), if_neg (by omega)]

/-- The marker loop, started at index `i` on the bytes of `stream` from offset
`8 + 16 * i`, stores the wire records it can read in full and nothing else. -/
theorem fetch_markers_spec (ops : FloatOps F) (stream : List Byte) (n : Nat) :
    ∀ (i : Nat) (b : phasespace_bodies F), i + n ≤ b.markers.length →
      (∀ j, i ≤ j → b.markers.getD j (zero_marker ops) = zero_marker ops) →
      (fetch_markers ops n i b (stream.drop (8 + 16 * i))).returned
          = decide (min n ((stream.length - (8 + 16 * i)) / 16) < n) ∧
      ((fetch_markers ops n i b (stream.drop (8 + 16 * i))).returned = false →
        (fetch_markers ops n i b (stream.drop (8 + 16 * i))).stream
          = stream.drop (8 + 16 * (i + n))) ∧
      (fetch_markers ops n i b (stream.drop (8 + 16 * i))).bodies.rigids = b.rigids ∧
      (fetch_markers ops n i b (stream.drop (8 + 16 * i))).bodies.markers.length
          = b.markers.length ∧
      ∀ j, (fetch_markers ops n i b (stream.drop (8 + 16 * i))).bodies.markers.getD j
            (zero_marker ops)
          = if i ≤ j ∧ j < i + min n ((stream.length - (8 + 16 * i)) / 16) then
              wire_marker ops stream j
            else b.markers.getD j (zero_marker ops) := by
  induction n with
  | zero =>
    intro i b _ _
    refine ⟨by simp [fetch_markers], by simp [fetch_markers], rfl, rfl, ?_⟩
    intro j
    rw [if_neg (by omega)]
    rfl
  | succ n ih =>
    intro i b hlen hz
    by_cases h16 : (stream.drop (8 + 16 * i)).length < 16
    · have hk : (stream.length - (8 + 16 * i)) / 16 = 0 := by
        simp only [List.length_drop] at h16; omega
      obtain ⟨h1, h2⟩ := fetch_markers_short ops n i b _ h16
      rw [h1, h2, hk]
      refine ⟨by simp, by simp, rfl, rfl, ?_⟩
      intro j
      rw [if_neg (by omega)]
    · rw [fetch_markers_step ops n i b _ (by omega)]
      have hs : (stream.drop (8 + 16 * i)).drop 16 = stream.drop (8 + 16 * (i + 1)) := by
        simp only [List.drop_drop]; congr 1
      have hm : ({ b.markers.getD i (zero_marker ops) with
            id := (i : Int) + 1,
            x := floatAt ops ((stream.drop (8 + 16 * i)).take 12) 0,
            y := floatAt ops ((stream.drop (8 + 16 * i)).take 12) 1,
            z := floatAt ops ((stream.drop (8 + 16 * i)).take 12) 2,
            cond := floatAt ops (((stream.drop (8 + 16 * i)).drop 12).take 4) 0 }
            : phasespace_marker_s F) = wire_marker ops stream i := by
        rw [hz i (Nat.le_refl i)]
        simp only [List.drop_drop]
        rw [floatAt_take_drop ops stream _ 12 0 (by omega),
          floatAt_take_drop ops stream _ 12 1 (by omega),
          floatAt_take_drop ops stream _ 12 2 (by omega),
          floatAt_take_drop ops stream _ 4 0 (by omega)]
        simp [zero_marker, wire_marker]
      have hk : min (n + 1) ((stream.length - (8 + 16 * i)) / 16)
          = min n ((stream.length - (8 + 16 * (i + 1))) / 16) + 1 := by
        simp only [List.length_drop] at h16; omega
      rw [hs, hm]
      have hz1 : ∀ j, i + 1 ≤ j →
          (b.markers.set i (wire_marker ops stream i)).getD j (zero_marker ops)
            = zero_marker ops := by
        intro j hj
        rw [getD_set_other _ _ _ _ _ (by omega)]
        exact hz j (by omega)
      have ih1 := ih (i + 1)
        { b with markers := b.markers.set i (wire_marker ops stream i) }
        (by simp only [List.length_set]; omega) hz1
      obtain ⟨h1, h2, h3, h4, h5⟩ := ih1
      refine ⟨?_, ?_, h3, ?_, ?_⟩
      · rw [h1, hk]; simp
      · intro hret
        rw [h2 hret]; congr 1; omega
      · rw [h4]; simp
      · intro j
        rw [h5 j, hk]
        by_cases hji : j = i
        · subst hji
          rw [if_neg (by omega), if_pos (by omega)]
          exact getD_set_self _ _ _ _ (by omega)
        · rw [getD_set_other _ _ _ _ _ (fun h => hji h.symm)]
          by_cases hc : i + 1 ≤ j ∧
              j < i + 1 + min n ((stream.length - (8 + 16 * (i + 1))) / 16)
          · rw [if_pos hc, if_pos (by omega)]
          · rw [if_neg hc, if_neg (by omega)]

theorem fetch_rigids_short (ops : FloatOps F) (n i : Nat) (b : phasespace_bodies F)
    (s : List Byte) (h : s.length < 32) :
    (fetch_rigids ops (n + 1) i b s).bodies = b := by
  rw [fetch_rigids]
  simp only [recv, List.length_take, List.length_drop]
  split_ifs <;> first | rfl | omega

theorem fetch_rigids_step (ops : FloatOps F) (n i : Nat) (b : phasespace_bodies F)
    (s : List Byte) (h : 32 ≤ s.length) :
    fetch_rigids ops (n + 1) i b s =
      fetch_rigids ops n (i + 1)
        { b with rigids := (b.rigids.set i
            { b.rigids.getD i (zero_rigid ops) with
              id := (i : Int) + 1,
              x := floatAt ops (s.take 32) 0,
              y := floatAt ops (s.take 32) 1,
              z := floatAt ops (s.take 32) 2,
              qw := floatAt ops (s.take 32) 3,
              qx := floatAt ops (s.take 32) 4,
              qy := floatAt ops (s.take 32) 5,
              qz := floatAt ops (s.take 32) 6,
              cond := floatAt ops (s.take 32) 7 }) }
        (s.drop 32) := by
  rw [fetch_rigids]
  simp only [recv, List.length_take, List.length_drop]
  rw [if_neg (by omega)]

/-- The rigid-body loop, started at index `i` on the bytes of `stream` from offset
`base + 32 * i`, stores the wire records it can read in full and nothing else. -/
theorem fetch_rigids_spec (ops : FloatOps F) (stream : List Byte) (base n : Nat) :
    ∀ (i : Nat) (b : phasespace_bodies F), i + n ≤ b.rigids.length →
      (∀ j, i ≤ j → b.rigids.getD j (zero_rigid ops) = zero_rigid ops) →
      (fetch_rigids ops n i b (stream.drop (base + 32 * i))).bodies.markers = b.markers ∧
      (fetch_rigids ops n i b (stream.drop (base + 32 * i))).bodies.rigids.length
          = b.rigids.length ∧
      ∀ j, (fetch_rigids ops n i b (stream.drop (base + 32 * i))).bodies.rigids.getD j
            (zero_rigid ops)
          = if i ≤ j ∧ j < i + min n ((stream.length - (base + 32 * i)) / 32) then
              wire_rigid ops stream base j
            else b.rigids.getD j (zero_rigid ops) := by
  induction n with
  | zero =>
    intro i b _ _
    refine ⟨rfl, rfl, ?_⟩
    intro j
    rw [if_neg (by omega)]
    rfl
  | succ n ih =>
    intro i b hlen hz
    by_cases h32 : (stream.drop (base + 32 * i)).length < 32
    · have hk : (stream.length - (base + 32 * i)) / 32 = 0 := by
        simp only [List.length_drop] at h32; omega
      rw [fetch_rigids_short ops n i b _ h32, hk]
      refine ⟨rfl, rfl, ?_⟩
      intro j
      rw [if_neg (by omega)]
    · rw [fetch_rigids_step ops n i b _ (by omega)]
      have hs : (stream.drop (base + 32 * i)).drop 32 = stream.drop (base + 32 * (i + 1)) := by
        simp only [List.drop_drop]; congr 1
      have hm : ({ b.rigids.getD i (zero_rigid ops) with
            id := (i : Int) + 1,
            x := floatAt ops ((stream.drop (base + 32 * i)).take 32) 0,
            y := floatAt ops ((stream.drop (base + 32 * i)).take 32) 1,
            z := floatAt ops ((stream.drop (base + 32 * i)).take 32) 2,
            qw := floatAt ops ((stream.drop (base + 32 * i)).take 32) 3,
            qx := floatAt ops ((stream.drop (base + 32 * i)).take 32) 4,
            qy := floatAt ops ((stream.drop (base + 32 * i)).take 32) 5,
            qz := floatAt ops ((stream.drop (base + 32 * i)).take 32) 6,
            cond := floatAt ops ((stream.drop (base + 32 * i)).take 32) 7 }
            : phasespace_rigid_s F) = wire_rigid ops stream base i := by
        rw [hz i (Nat.le_refl i)]
        rw [floatAt_take_drop ops stream _ 32 0 (by omega),
          floatAt_take_drop ops stream _ 32 1 (by omega),
          floatAt_take_drop ops stream _ 32 2 (by omega),
          floatAt_take_drop ops stream _ 32 3 (by omega),
          floatAt_take_drop ops stream _ 32 4 (by omega),
          floatAt_take_drop ops stream _ 32 5 (by omega),
          floatAt_take_drop ops stream _ 32 6 (by omega),
          floatAt_take_drop ops stream _ 32 7 (by omega)]
        simp [zero_rigid, wire_rigid]
      have hk : min (n + 1) ((stream.length - (base + 32 * i)) / 32)
          = min n ((stream.length - (base + 32 * (i + 1))) / 32) + 1 := by
        simp only [List.length_drop] at h32; omega
      rw [hs, hm]
      have hz1 : ∀ j, i + 1 ≤ j →
          (b.rigids.set i (wire_rigid ops stream base i)).getD j (zero_rigid ops)
            = zero_rigid ops := by
        intro j hj
        rw [getD_set_other _ _ _ _ _ (by omega)]
        exact hz j (by omega)
      have ih1 := ih (i + 1)
        { b with rigids := b.rigids.set i (wire_rigid ops stream base i) }
        (by simp only [List.length_set]; omega) hz1
      obtain ⟨h3, h4, h5⟩ := ih1
      refine ⟨h3, ?_, ?_⟩
      · rw [h4]; simp
      · intro j
        rw [h5 j, hk]
        by_cases hji : j = i
        · subst hji
          rw [if_neg (by omega), if_pos (by omega)]
          exact getD_set_self _ _ _ _ (by omega)
        · rw [getD_set_other _ _ _ _ _ (fun h => hji h.symm)]
          by_cases hc : i + 1 ≤ j ∧
              j < i + 1 + min n ((stream.length - (base + 32 * (i + 1))) / 32)
          · rw [if_pos hc, if_pos (by omega)]
          · rw [if_neg hc, if_neg (by omega)]

theorem zero_bodies_markers_getD (ops : FloatOps F) (j : Nat) :
    (zero_bodies ops).markers.getD j (zero_marker ops) = zero_marker ops := by
  simp only [zero_bodies, List.getD_eq_getElem?_getD, List.getElem?_replicate]
  split <;> rfl

theorem zero_bodies_rigids_getD (ops : FloatOps F) (j : Nat) :
    (zero_bodies ops).rigids.getD j (zero_rigid ops) = zero_rigid ops := by
  simp only [zero_bodies, List.getD_eq_getElem?_getD, List.getElem?_replicate]
  split <;> rfl

theorem header_markers_le (stream : List Byte) : header_markers stream ≤ 128 := by
  unfold header_markers; omega

theorem header_rigids_le (stream : List Byte) : header_rigids stream ≤ 64 := by
  unfold header_rigids; omega

/-- What `owl_fetch_frame` leaves in the frame once the header was read: the clamped
counts, the records read in full, zero in every other slot. -/
theorem owl_fetch_frame_decoded (ops : FloatOps F) (srv : phasespace_server_s)
    (hfd : 0 ≤ srv.fd) (prior : phasespace_bodies F) (stream : List Byte)
    (hlen : 8 ≤ stream.length) :
    (owl_fetch_frame ops (some srv) prior stream).1.markers.length = 128 ∧
    (owl_fetch_frame ops (some srv) prior stream).1.rigids.length = 64 ∧
    (∀ j, (owl_fetch_frame ops (some srv) prior stream).1.markers.getD j (zero_marker ops)
        = if j < markers_read stream then wire_marker ops stream j else zero_marker ops) ∧
    (∀ j, (owl_fetch_frame ops (some srv) prior stream).1.rigids.getD j (zero_rigid ops)
        = if j < rigids_read stream then
            wire_rigid ops stream (8 + 16 * header_markers stream) j
          else zero_rigid ops) := by
  have hm := fetch_markers_spec ops stream (header_markers stream) 0
    (header_bodies ops stream)
    (by have := header_markers_le stream
        simp [header_bodies, zero_bodies, PHASESPACE_MAX_MARKERS]; omega)
    (fun j _ => zero_bodies_markers_getD ops j)
  simp only [Nat.mul_zero, Nat.add_zero, Nat.zero_add, Nat.zero_le, true_and] at hm
  obtain ⟨h1, h2, h3, h4, h5⟩ := hm
  rw [owl_fetch_frame_full_header ops srv hfd prior stream hlen]
  have hml : (header_bodies ops stream).markers.length = 128 := by
    simp [header_bodies, zero_bodies, PHASESPACE_MAX_MARKERS]
  have hrl : (header_bodies ops stream).rigids.length = 64 := by
    simp [header_bodies, zero_bodies, PHASESPACE_MAX_RIGIDS]
  by_cases hret : (fetch_markers ops (header_markers stream) 0 (header_bodies ops stream)
      (stream.drop 8)).returned = true
  · rw [if_pos hret]
    rw [h1] at hret
    have hlt : (stream.length - 8) / 16 < header_markers stream := by
      simp only [decide_eq_true_eq] at hret; omega
    have hrr : rigids_read stream = 0 := by
      unfold rigids_read; split
      · omega
      · rfl
    refine ⟨by rw [h4, hml], by rw [h3, hrl], ?_, ?_⟩
    · intro j
      rw [h5 j]
      simp only [markers_read]
      split <;> first | rfl | exact zero_bodies_markers_getD ops j
    · intro j
      rw [h3, hrr, if_neg (by omega)]
      exact zero_bodies_rigids_getD ops j
  · rw [if_neg hret]
    have hret2 : (fetch_markers ops (header_markers stream) 0 (header_bodies ops stream)
        (stream.drop 8)).returned = false := by
      simpa using hret
    have hge : header_markers stream ≤ (stream.length - 8) / 16 := by
      rw [h1] at hret2
      simp only [decide_eq_false_iff_not] at hret2; omega
    have hr := fetch_rigids_spec ops stream (8 + 16 * header_markers stream)
      (header_rigids stream) 0
      (fetch_markers ops (header_markers stream) 0 (header_bodies ops stream)
        (stream.drop 8)).bodies
      (by have := header_rigids_le stream
          rw [h3, hrl]; omega)
      (fun j _ => by rw [h3]; exact zero_bodies_rigids_getD ops j)
    simp only [Nat.mul_zero, Nat.add_zero, Nat.zero_add, Nat.zero_le, true_and] at hr
    rw [← h2 hret2] at hr
    obtain ⟨g1, g2, g3⟩ := hr
    refine ⟨by rw [g1, h4, hml], by rw [g2, h3, hrl], ?_, ?_⟩
    · intro j
      rw [g1, h5 j]
      simp only [markers_read]
      split <;> first | rfl | exact zero_bodies_markers_getD ops j
    · intro j
      rw [g3 j, h3]
      have hrr : rigids_read stream
          = min (header_rigids stream)
              ((stream.length - (8 + 16 * header_markers stream)) / 32) := by
        unfold rigids_read; rw [if_pos (by omega)]
      rw [hrr]
      split <;> first | rfl | exact zero_bodies_rigids_getD ops j

end DecoderLemmas


/-! ## Claims on the decoder -/

section DecoderClaims

variable {F : Type}

/-- C1: for every 8-byte header, after `owl_fetch_frame` the marker count of the frame
is the minimum of 128 and the big-endian 16-bit value of header bytes 0-1, and the rigid
count the minimum of 64 and the big-endian value of bytes 2-3; after the `FRAME` branch
of `phsp_publish_recv` the counts are the minimum of the capacity and the counts of the
event. A reported count above capacity therefore yields exactly the capacity. -/
theorem C1_decoded_counts_clamped (ops : FloatOps F) (srv : phasespace_server_s)
    (hfd : 0 ≤ srv.fd) (prior : phasespace_bodies F) (header rest : List Byte)
    (hlen : header.length = 8) (env : AioEnv) (evt : Event F)
    (hframe : evt.type_id = EventType.FRAME) (log : Option (phasespace_log_s F))
    (bodies : phasespace_bodies F) :
    ((owl_fetch_frame ops (some srv) prior (header ++ rest)).1.num_markers
        = min ((header.getD 0 0).val * 256 + (header.getD 1 0).val) 128 ∧
     (owl_fetch_frame ops (some srv) prior (header ++ rest)).1.num_rigids
        = min ((header.getD 2 0).val * 256 + (header.getD 3 0).val) 64) ∧
    ((recv_frame ops evt bodies).num_markers = min evt.num_markers 128 ∧
     (recv_frame ops evt bodies).num_rigids = min evt.num_rigids 64) ∧
    (∀ r, phsp_publish_recv ops env (some evt) log bodies = some r →
      r.bodies = recv_frame ops evt bodies) := by
  have hg : ∀ k, k < 8 → (header ++ rest).getD k 0 = header.getD k 0 := by
    intro k hk
    simp only [List.getD_eq_getElem?_getD]
    rw [List.getElem?_append_left (by omega)]
  have hc := fetch_counts ops srv hfd prior (header ++ rest)
    (by simp only [List.length_append]; omega)
  simp only [header_markers, header_rigids, hg 0 (by omega), hg 1 (by omega),
    hg 2 (by omega), hg 3 (by omega)] at hc
  refine ⟨hc, recv_frame_counts ops evt bodies, ?_⟩
  intro r hr
  simp only [phsp_publish_recv, hframe, if_true] at hr
  cases hl : recv_log ops env log (recv_frame ops evt bodies) with
  | none => rw [hl] at hr; simp at hr
  | some v =>
    rw [hl] at hr
    simp only [Option.map_some', Option.some.injEq] at hr
    rw [← hr]

/-- A header announcing 256 markers and 200 rigid bodies decodes to counts 128 and 64,
and so does an event announcing 500 markers and 65 rigid bodies. -/
theorem C1_decoded_counts_clamped_witness :
    (owl_fetch_frame zops (some ⟨3⟩) (zero_bodies zops) sample_big_header).1.num_markers
      = 128 ∧
    (owl_fetch_frame zops (some ⟨3⟩) (zero_bodies zops) sample_big_header).1.num_rigids
      = 64 ∧
    (recv_frame zops sample_big_event (zero_bodies zops)).num_markers = 128 ∧
    (recv_frame zops sample_big_event (zero_bodies zops)).num_rigids = 64 := by
  have h := C1_decoded_counts_clamped zops ⟨3⟩ (by decide) (zero_bodies zops)
    sample_big_header [] (by decide) ⟨0, 0, 0⟩ sample_big_event rfl none (zero_bodies zops)
  exact ⟨h.1.1.trans (by decide), h.1.2.trans (by decide), h.2.1.1.trans (by decide),
    h.2.1.2.trans (by decide)⟩

/-- C2, refuted as stated: with a frame already holding a marker, a header read that
comes back short leaves the all-zero frame, not the prior one; and a marker record
read that comes back short leaves the announced count 1 over a zeroed marker array,
which is neither the prior frame nor the announced one. -/
theorem C2_counterexample :
    ((recv ([] : List Byte) 8).1.length ≠ 8 ∧
      (owl_fetch_frame zops (some ⟨3⟩) sample_prior []).1 ≠ sample_prior ∧
      (owl_fetch_frame zops (some ⟨3⟩) sample_prior []).1 = zero_bodies zops) ∧
    ((recv (sample_cut_stream.drop 8) 12).1.length ≠ 12 ∧
      (owl_fetch_frame zops (some ⟨3⟩) sample_prior sample_cut_stream).1 ≠ sample_prior ∧
      (owl_fetch_frame zops (some ⟨3⟩) sample_prior sample_cut_stream).1.num_markers = 1 ∧
      (owl_fetch_frame zops (some ⟨3⟩) sample_prior sample_cut_stream).1.markers
        = (zero_bodies zops).markers) := by
  decide

/-- C2, amended: `owl_fetch_frame` keeps the prior frame only when the server is null
or its descriptor negative. Otherwise it zeroes the frame first and decodes in place:
after a short header read the frame is all zero; once the header is read the frame
holds the clamped counts, the wire records that were read in full (all the marker
records before any rigid-body record) and zero in every other slot; when the stream
holds every announced record, every announced record is decoded. -/
theorem C2_fetch_zeroes_then_decodes (ops : FloatOps F)
    (server : Option phasespace_server_s) (prior : phasespace_bodies F)
    (stream : List Byte) :
    ((server = none ∨ ∃ srv, server = some srv ∧ srv.fd < 0) →
      owl_fetch_frame ops server prior stream = (prior, stream)) ∧
    (∀ srv, server = some srv → 0 ≤ srv.fd →
      (stream.length < 8 →
        (owl_fetch_frame ops server prior stream).1 = zero_bodies ops) ∧
      (8 ≤ stream.length →
        (owl_fetch_frame ops server prior stream).1.num_markers = header_markers stream ∧
        (owl_fetch_frame ops server prior stream).1.num_rigids = header_rigids stream ∧
        (owl_fetch_frame ops server prior stream).1.markers.length = 128 ∧
        (owl_fetch_frame ops server prior stream).1.rigids.length = 64 ∧
        (∀ j, (owl_fetch_frame ops server prior stream).1.markers.getD j (zero_marker ops)
          = if j < markers_read stream then wire_marker ops stream j
            else zero_marker ops) ∧
        (∀ j, (owl_fetch_frame ops server prior stream).1.rigids.getD j (zero_rigid ops)
          = if j < rigids_read stream then
              wire_rigid ops stream (8 + 16 * header_markers stream) j
            else zero_rigid ops)) ∧
      (8 + 16 * header_markers stream + 32 * header_rigids stream ≤ stream.length →
        markers_read stream = header_markers stream ∧
        rigids_read stream = header_rigids stream)) := by
  refine ⟨?_, ?_⟩
  · rintro (h | ⟨srv, h, hfd⟩)
    · subst h; rfl
    · subst h; simp [owl_fetch_frame, hfd]
  · intro srv hsrv hfd
    subst hsrv
    refine ⟨?_, ?_, ?_⟩
    · intro hshort
      have h8 : (recv stream 8).1.length ≠ 8 := by
        simp only [recv, List.length_take]; omega
      simp only [owl_fetch_frame, not_lt.mpr hfd, if_false, h8, ne_eq, not_false_eq_true,
        if_true]
    · intro hlen
      have hc := fetch_counts ops srv hfd prior stream hlen
      have hd := owl_fetch_frame_decoded ops srv hfd prior stream hlen
      exact ⟨hc.1, hc.2, hd.1, hd.2.1, hd.2.2.1, hd.2.2.2⟩
    · intro hfull
      refine ⟨?_, ?_⟩
      · unfold markers_read; omega
      · unfold rigids_read; rw [if_pos (by omega)]; omega

/-- On the stream cut inside its only marker record, the frame after the call has the
announced count 1 and no decoded marker. -/
theorem C2_fetch_zeroes_then_decodes_witness :
    (owl_fetch_frame zops (some ⟨3⟩) sample_prior sample_cut_stream).1.num_markers = 1 ∧
    (owl_fetch_frame zops (some ⟨3⟩) sample_prior sample_cut_stream).1.markers.getD 0
      (zero_marker zops) = zero_marker zops := by
  have h := (C2_fetch_zeroes_then_decodes zops (some ⟨3⟩) sample_prior
    sample_cut_stream).2 ⟨3⟩ rfl (by decide)
  have h2 := h.2.1 (by decide)
  exact ⟨h2.1.trans (by decide), (h2.2.2.2.2.1 0).trans (by decide)⟩

end DecoderClaims

/-! ## Properties of the logger -/

section LoggerLemmas

variable {F : Type}

/-- With a negative descriptor `owl_log` returns at its first test. -/
theorem owl_log_disabled (ops : FloatOps F) (env : AioEnv) (log : phasespace_log_s F)
    (bodies : phasespace_bodies F) (hfd : log.req.aio_fildes < 0) :
    owl_log ops env log bodies = some (log, []) := by
  simp [owl_log, hfd]

/-- With a valid descriptor and a zero decimation `owl_log` divides by zero. -/
theorem owl_log_zero_divisor (ops : FloatOps F) (env : AioEnv) (log : phasespace_log_s F)
    (bodies : phasespace_bodies F) (hfd : 0 ≤ log.req.aio_fildes)
    (hdec : log.decimation = 0) :
    owl_log ops env log bodies = none := by
  simp [owl_log, not_lt.mpr hfd, hdec]

/-- A call that is not due only increments `total`. -/
theorem owl_log_decimated (ops : FloatOps F) (env : AioEnv) (log : phasespace_log_s F)
    (bodies : phasespace_bodies F) (hfd : 0 ≤ log.req.aio_fildes)
    (hdec : 1 ≤ log.decimation)
    (hskip : (log.total + 1) % SIZE_MOD % log.decimation ≠ 0) :
    owl_log ops env log bodies
      = some ({ log with total := (log.total + 1) % SIZE_MOD }, []) := by
  have h0 : log.decimation ≠ 0 := by omega
  simp [owl_log, not_lt.mpr hfd, h0, hskip]

/-- A due call that finds the previous write in progress only counts the frame. -/
theorem owl_log_backpressure (ops : FloatOps F) (env : AioEnv) (log : phasespace_log_s F)
    (bodies : phasespace_bodies F) (hfd : 0 ≤ log.req.aio_fildes)
    (hdec : 1 ≤ log.decimation)
    (hdue : (log.total + 1) % SIZE_MOD % log.decimation = 0)
    (hpend : log.pending = true) (hprog : env.aio_error = EINPROGRESS) :
    owl_log ops env log bodies
      = some ({ log with total := (log.total + 1) % SIZE_MOD, skipped := true,
                         missed := (log.missed + 1) % SIZE_MOD }, []) := by
  have h0 : log.decimation ≠ 0 := by omega
  simp [owl_log, not_lt.mpr hfd, h0, hdue, hpend, hprog]

/-- On every path of `owl_log` past the descriptor test the counter is incremented. -/
theorem owl_log_total (ops : FloatOps F) (env : AioEnv) (log : phasespace_log_s F)
    (bodies : phasespace_bodies F) (hfd : 0 ≤ log.req.aio_fildes)
    (hdec : 1 ≤ log.decimation) :
    ∃ r, owl_log ops env log bodies = some r ∧ r.1.total = (log.total + 1) % SIZE_MOD ∧
      r.1.decimation = log.decimation := by
  have h0 : log.decimation ≠ 0 := by omega
  simp only [owl_log, not_lt.mpr hfd, if_false, h0]
  split_ifs <;> exact ⟨_, rfl, rfl, rfl⟩

theorem snprintf_snd (buffer : List Char) (ptr rem : Nat) (text : List Char) :
    (snprintf buffer ptr rem text).2 = text.length := by
  unfold snprintf; split <;> rfl

theorem header_staged :
    (snprintf (List.replicate LOG_BUFFER_SIZE NUL) 0 LOG_BUFFER_SIZE
        (phsp_log_header ++ "\n".toList)).1.take (phsp_log_header ++ "\n".toList).length
      = phsp_log_header ++ "\n".toList := by
  decide

/-- The logger state and the effects of a `phsp_log_start` call that returns
`genom_ok`. -/
theorem phsp_log_start_ok (ops : FloatOps F) (senv : StartEnv) (path : List Char)
    (d : Nat) (log0 : Option (phasespace_log_s F)) (l0 : phasespace_log_s F)
    (effs0 : List Effect)
    (hstart : phsp_log_start ops senv path d log0
      = (genom_event.genom_ok, some l0, effs0)) :
    0 ≤ l0.req.aio_fildes ∧ l0.req.aio_fildes = senv.open_fd ∧ l0.req.aio_offset = 0 ∧
    l0.pending = true ∧ l0.decimation = (if d < 1 then 1 else d) ∧ l0.total = 0 ∧
    l0.missed = 0 ∧ l0.prev_bodies = zero_bodies ops ∧ senv.aio_write = 0 ∧
    effs0 = [Effect.open_file path false senv.open_fd,
      Effect.aio_write senv.open_fd 0 (phsp_log_header ++ "\n".toList) 0] := by
  unfold phsp_log_start at hstart
  simp only [snprintf_snd] at hstart
  generalize (if d < 1 then 1 else d) = dd at hstart ⊢
  split_ifs at hstart with h1 h2 h3 h4
  all_goals try (simp only [Prod.mk.injEq, reduceCtorEq, false_and] at hstart)
  simp only [Prod.mk.injEq, Option.some.injEq, true_and] at hstart
  obtain ⟨hl, he⟩ := hstart
  have hw : senv.aio_write = 0 := by simpa using h4
  subst hl
  subst he
  refine ⟨not_lt.mp h2, rfl, rfl, rfl, rfl, rfl, rfl, rfl, hw, ?_⟩
  simp only [zero_log, hw]
  rw [header_staged]

theorem owl_log_seq_append (ops : FloatOps F) (cs : List (AioEnv × phasespace_bodies F))
    (c : AioEnv × phasespace_bodies F) :
    ∀ (l l1 : phasespace_log_s F) (effs : List (List Effect)),
      owl_log_seq ops cs l = some (l1, effs) →
      ∀ r, owl_log ops c.1 l1 c.2 = some r →
        owl_log_seq ops (cs ++ [c]) l = some (r.1, effs ++ [r.2]) := by
  induction cs with
  | nil =>
    intro l l1 effs h r hr
    simp only [owl_log_seq, Option.some.injEq, Prod.mk.injEq] at h
    obtain ⟨h1, h2⟩ := h
    subst h1; subst h2
    simp [owl_log_seq, hr]
  | cons a cs ih =>
    intro l l1 effs h r hr
    simp only [owl_log_seq, List.cons_append, Option.bind_eq_some, Option.map_eq_some']
      at h ⊢
    obtain ⟨ra, ha, rest, hs, hrest⟩ := h
    simp only [Prod.mk.injEq] at hrest
    obtain ⟨h1, h2⟩ := hrest
    refine ⟨ra, ha, (r.1, rest.2 ++ [r.2]), ?_, ?_⟩
    · exact ih ra.1 rest.1 rest.2 hs r (by rw [h1]; exact hr)
    · simp [← h2]

/-- Calls that stay below the decimation count only increment `total`. -/
theorem owl_log_seq_skipped (ops : FloatOps F)
    (calls : List (AioEnv × phasespace_bodies F)) :
    ∀ (l : phasespace_log_s F), 0 ≤ l.req.aio_fildes →
      l.total + calls.length < l.decimation → l.decimation < SIZE_MOD →
      owl_log_seq ops calls l
        = some ({ l with total := l.total + calls.length },
                List.replicate calls.length []) := by
  induction calls with
  | nil => intro l _ _ _; simp [owl_log_seq]
  | cons c cs ih =>
    intro l hfd hlt hmod
    simp only [List.length_cons] at hlt
    have hm : (l.total + 1) % SIZE_MOD = l.total + 1 := Nat.mod_eq_of_lt (by omega)
    have hskip : (l.total + 1) % SIZE_MOD % l.decimation ≠ 0 := by
      rw [hm, Nat.mod_eq_of_lt (by omega)]; omega
    have h1 := owl_log_decimated ops c.1 l c.2 hfd (by omega) hskip
    rw [hm] at h1
    have h2 := ih { l with total := l.total + 1 } hfd (by simp only; omega) hmod
    simp only [owl_log_seq, h1, h2, List.length_cons, List.replicate_succ,
      Option.some_bind, Option.map_some', Option.some.injEq, Prod.mk.injEq, and_true]
    congr 1
    omega

/-- The emitting path of `owl_log`: the call is due and the previous write, if one is
pending, is not reported in progress. Exactly one `aio_write` is called, on the bytes
the formatting loops produced. -/
theorem owl_log_emit (ops : FloatOps F) (env : AioEnv) (log : phasespace_log_s F)
    (bodies : phasespace_bodies F) (hfd : 0 ≤ log.req.aio_fildes)
    (hdec : 1 ≤ log.decimation)
    (hdue : (log.total + 1) % SIZE_MOD % log.decimation = 0)
    (hready : ¬ (log.pending = true ∧ env.aio_error = EINPROGRESS)) :
    ∃ r, owl_log ops env log bodies = some r ∧
      r.1.total = (log.total + 1) % SIZE_MOD ∧ r.1.missed = log.missed ∧
      r.1.prev_bodies = bodies ∧ r.1.decimation = log.decimation ∧
      r.1.req.aio_offset = log.req.aio_offset ∧
      r.1.pending = decide (env.aio_write = 0) ∧
      (r.1.req.aio_fildes =
        if (log.pending = true ∧ env.aio_return ≤ 0) ∨ env.aio_write ≠ 0 then -1
        else log.req.aio_fildes) ∧
      writes r.2 =
        [Effect.aio_write
          (if log.pending = true ∧ env.aio_return ≤ 0 then -1 else log.req.aio_fildes)
          log.req.aio_offset
          ((format_frame ops log.prev_bodies bodies log.buffer).buffer.take
            (format_frame ops log.prev_bodies bodies log.buffer).bufptr)
          env.aio_write] := by
  have h0 : log.decimation ≠ 0 := by omega
  simp only [owl_log, not_lt.mpr hfd, if_false, h0, hdue, ne_eq, not_true_eq_false, hready]
  by_cases hp : log.pending = true
  · by_cases hr : env.aio_return ≤ 0
    · by_cases hw : env.aio_write = 0
      · refine ⟨_, rfl, ?_⟩
        simp [hp, hr, hw, writes, Effect.isWrite]
      · refine ⟨_, rfl, ?_⟩
        simp [hp, hr, hw, writes, Effect.isWrite]
    · by_cases hw : env.aio_write = 0
      · refine ⟨_, rfl, ?_⟩
        simp [hp, hr, hw, writes, Effect.isWrite]
      · refine ⟨_, rfl, ?_⟩
        simp [hp, hr, hw, writes, Effect.isWrite]
  · by_cases hw : env.aio_write = 0
    · refine ⟨_, rfl, ?_⟩
      simp [hp, hw, writes, Effect.isWrite]
    · refine ⟨_, rfl, ?_⟩
      simp [hp, hw, writes, Effect.isWrite]

theorem kernel_fold_writes (effs : List Effect) :
    ∀ k : AioKernel, effs.foldl kernel_effect k = (writes effs).foldl kernel_effect k := by
  induction effs with
  | nil => intro k; rfl
  | cons e es ih =>
    intro k
    cases e with
    | open_file p a rc => simpa [writes, Effect.isWrite, kernel_effect] using ih k
    | warnx m => simpa [writes, Effect.isWrite, kernel_effect] using ih k
    | close fd => simpa [writes, Effect.isWrite, kernel_effect] using ih k
    | aio_write fd off bytes rc =>
      simpa [writes, Effect.isWrite] using ih (kernel_effect k (Effect.aio_write fd off bytes rc))

theorem kernel_complete_consistent (log log1 : phasespace_log_s F) (k : AioKernel)
    (completes : Nat → Bool) (h : aio_consistent log k)
    (hdec : log1.decimation = log.decimation)
    (hpend : log.pending = true → log1.pending = true) :
    aio_consistent log1 (kernel_complete k completes) := by
  obtain ⟨h1, h2, h3⟩ := h
  refine ⟨h1, by rw [hdec]; exact h2, ?_⟩
  rcases h3 with h3 | ⟨h3, h4, h5⟩
  · left; simp [kernel_complete, h3]
  · by_cases hc : completes (k.queued - 1) = true
    · left; simp [kernel_complete, h3, hc]
    · right
      refine ⟨?_, h4, hpend h5⟩
      simp [kernel_complete, h3, hc]

/-- One `owl_log` call against the subsystem returns and keeps the discipline. -/
theorem system_step_consistent (ops : FloatOps F) (tick : Tick F)
    (log : phasespace_log_s F) (k : AioKernel) (h : aio_consistent log k) :
    ∃ st, system_step ops tick (log, k) = some st ∧ aio_consistent st.1 st.2 := by
  have hdec : 1 ≤ log.decimation := h.2.1
  simp only [system_step]
  by_cases hfd : log.req.aio_fildes < 0
  · rw [owl_log_disabled ops _ log tick.bodies hfd]
    exact ⟨_, rfl, kernel_complete_consistent log log k _ h rfl (fun hp => hp)⟩
  · have hfd0 : 0 ≤ log.req.aio_fildes := not_lt.mp hfd
    by_cases hdue : (log.total + 1) % SIZE_MOD % log.decimation = 0
    · by_cases hready : log.pending = true ∧
          kernel_aio_error (kernel_complete k tick.completes) tick.aio_error = EINPROGRESS
      · rw [owl_log_backpressure ops _ log tick.bodies hfd0 hdec hdue hready.1 hready.2]
        exact ⟨_, rfl, kernel_complete_consistent log _ k _ h rfl (fun hp => hp)⟩
      · obtain ⟨r, hr, _, _, _, hd, _, hp, _, hw⟩ := owl_log_emit ops
          { aio_error := kernel_aio_error (kernel_complete k tick.completes) tick.aio_error,
            aio_return := tick.aio_return, aio_write := tick.aio_write }
          log tick.bodies hfd0 hdec hdue hready
        rw [hr]
        refine ⟨_, rfl, ?_⟩
        have hk := kernel_complete_consistent log log k tick.completes h rfl (fun hp => hp)
        obtain ⟨k1, k2, k3⟩ := hk
        have hempty : (kernel_complete k tick.completes).inflight = [] := by
          rcases k3 with k3 | ⟨k3, k4, k5⟩
          · exact k3
          · exfalso
            apply hready
            refine ⟨k5, ?_⟩
            simp only [kernel_aio_error]
            rw [if_pos ⟨k4, by rw [k3]; simp⟩]
        show aio_consistent r.1 (r.2.foldl kernel_effect (kernel_complete k tick.completes))
        rw [kernel_fold_writes, hw]
        simp only [List.foldl_cons, List.foldl_nil, kernel_effect]
        by_cases hrc : tick.aio_write = 0
        · rw [if_pos hrc]
          refine ⟨by simp [k1, hempty], by rw [hd]; exact hdec, ?_⟩
          right
          refine ⟨by simp [hempty], by simp, ?_⟩
          rw [hp]; simp [hrc]
        · rw [if_neg hrc]
          exact ⟨k1, by rw [hd]; exact hdec, Or.inl hempty⟩
    · rw [owl_log_decimated ops _ log tick.bodies hfd0 hdec hdue]
      exact ⟨_, rfl, kernel_complete_consistent log _ k _ h rfl (fun hp => hp)⟩

theorem system_run_consistent (ops : FloatOps F) (ticks : List (Tick F)) :
    ∀ (log : phasespace_log_s F) (k : AioKernel), aio_consistent log k →
      ∃ st, system_run ops ticks (log, k) = some st ∧ aio_consistent st.1 st.2 := by
  induction ticks with
  | nil => intro log k h; exact ⟨_, rfl, h⟩
  | cons t ts ih =>
    intro log k h
    obtain ⟨st, hs, hc⟩ := system_step_consistent ops t log k h
    obtain ⟨st2, hs2, hc2⟩ := ih st.1 st.2 hc
    exact ⟨st2, by simp only [system_run, hs]; exact hs2, hc2⟩

/-- Whatever `phsp_log_start` returns, the logger state it leaves and the requests it
queued obey the discipline. -/
theorem phsp_log_start_consistent (ops : FloatOps F) (senv : StartEnv) (path : List Char)
    (d : Nat) (log0 : Option (phasespace_log_s F)) (ev : genom_event)
    (l0 : phasespace_log_s F) (effs0 : List Effect)
    (hstart : phsp_log_start ops senv path d log0 = (ev, some l0, effs0)) :
    aio_consistent l0 (effs0.foldl kernel_effect kernel_init) := by
  unfold phsp_log_start at hstart
  simp only [snprintf_snd] at hstart
  have hdd : 1 ≤ (if d < 1 then 1 else d) := by split <;> omega
  generalize (if d < 1 then 1 else d) = dd at hstart hdd
  split_ifs at hstart with h1 h2 h3 h4
  all_goals simp only [Prod.mk.injEq, Option.some.injEq, reduceCtorEq, and_false,
    false_and] at hstart
  all_goals obtain ⟨_, hl, he⟩ := hstart
  all_goals subst hl
  all_goals subst he
  · exact ⟨rfl, hdd, Or.inl rfl⟩
  · exact ⟨rfl, hdd, Or.inl rfl⟩
  · refine ⟨?_, hdd, Or.inl ?_⟩ <;>
      simp [kernel_effect, kernel_init, h4]
  · have hw : senv.aio_write = 0 := by simpa using h4
    refine ⟨?_, hdd, Or.inr ⟨?_, ?_, rfl⟩⟩ <;>
      simp [kernel_effect, kernel_init, hw]

/-- A call that does not call `aio_write` leaves the stored previous frame alone. -/
theorem owl_log_no_write_prev (ops : FloatOps F) (env : AioEnv) (log : phasespace_log_s F)
    (bodies : phasespace_bodies F) (r : phasespace_log_s F × List Effect)
    (hr : owl_log ops env log bodies = some r) (hw : writes r.2 = []) :
    r.1.prev_bodies = log.prev_bodies := by
  by_cases hfd : log.req.aio_fildes < 0
  · rw [owl_log_disabled ops env log bodies hfd] at hr
    simp only [Option.some.injEq] at hr
    rw [← hr]
  · have hfd0 : 0 ≤ log.req.aio_fildes := not_lt.mp hfd
    by_cases hdec : log.decimation = 0
    · rw [owl_log_zero_divisor ops env log bodies hfd0 hdec] at hr
      simp at hr
    · have hdec1 : 1 ≤ log.decimation := by omega
      by_cases hdue : (log.total + 1) % SIZE_MOD % log.decimation = 0
      · by_cases hready : log.pending = true ∧ env.aio_error = EINPROGRESS
        · rw [owl_log_backpressure ops env log bodies hfd0 hdec1 hdue hready.1 hready.2] at hr
          simp only [Option.some.injEq] at hr
          rw [← hr]
        · obtain ⟨r2, hr2, _, _, _, _, _, _, _, hw2⟩ :=
            owl_log_emit ops env log bodies hfd0 hdec1 hdue hready
          rw [hr2] at hr
          simp only [Option.some.injEq] at hr
          rw [hr] at hw2
          rw [hw] at hw2
          simp at hw2
      · rw [owl_log_decimated ops env log bodies hfd0 hdec1 hdue] at hr
        simp only [Option.some.injEq] at hr
        rw [← hr]

theorem owl_log_seq_no_write_prev (ops : FloatOps F)
    (calls : List (AioEnv × phasespace_bodies F)) :
    ∀ (l lf : phasespace_log_s F) (effs : List (List Effect)),
      owl_log_seq ops calls l = some (lf, effs) → (∀ e ∈ effs, writes e = []) →
      lf.prev_bodies = l.prev_bodies := by
  induction calls with
  | nil =>
    intro l lf effs h _
    simp only [owl_log_seq, Option.some.injEq, Prod.mk.injEq] at h
    rw [← h.1]
  | cons c cs ih =>
    intro l lf effs h hw
    simp only [owl_log_seq, Option.bind_eq_some, Option.map_eq_some'] at h
    obtain ⟨r, hr, rest, hs, hrest⟩ := h
    simp only [Prod.mk.injEq] at hrest
    obtain ⟨h1, h2⟩ := hrest
    have hw1 : writes r.2 = [] := hw r.2 (by rw [← h2]; simp)
    have hw2 : ∀ e ∈ rest.2, writes e = [] := fun e he => hw e (by rw [← h2]; simp [he])
    rw [← h1, ih r.1 rest.1 rest.2 hs hw2]
    exact owl_log_no_write_prev ops c.1 l c.2 r hr hw1

theorem snprintf_length (buffer : List Char) (ptr rem : Nat) (text : List Char)
    (hb : ptr + rem ≤ buffer.length) :
    (snprintf buffer ptr rem text).1.length = buffer.length := by
  unfold snprintf
  split
  · rfl
  · simp only [List.length_append, List.length_take, List.length_drop,
      List.length_singleton]
    omega

theorem snprintf_keeps_front (buffer : List Char) (ptr rem : Nat) (text : List Char)
    (hb : ptr + rem ≤ buffer.length) :
    (snprintf buffer ptr rem text).1.take ptr = buffer.take ptr := by
  unfold snprintf
  split
  · rfl
  · have hl : (buffer.take ptr).length = ptr := by
      simp only [List.length_take]; omega
    simp only [List.append_assoc]
    rw [List.take_append_of_le_length (by omega)]
    rw [List.take_of_length_le (by omega)]

theorem snprintf_fits (buffer : List Char) (ptr rem : Nat) (text : List Char)
    (hb : ptr + rem ≤ buffer.length) (hfit : text.length < rem) :
    (snprintf buffer ptr rem text).1.take (ptr + text.length) = buffer.take ptr ++ text := by
  unfold snprintf
  rw [if_neg (by omega)]
  have hl : (buffer.take ptr).length = ptr := by
    simp only [List.length_take]; omega
  have ht : text.take (rem - 1) = text := List.take_of_length_le (by omega)
  simp only [ht, List.append_assoc]
  rw [List.take_append_eq_append_take, hl]
  rw [List.take_of_length_le (by omega)]
  congr 1
  rw [List.take_append_eq_append_take]
  have h1 : ptr + text.length - ptr = text.length := by omega
  rw [h1, List.take_of_length_le (Nat.le_refl _)]
  simp

theorem concat_lines_succ (text : Nat → List Char) (k i : Nat) :
    concat_lines text (k + 1) i = text i ++ concat_lines text k (i + 1) := rfl

/-- What a formatting loop of `owl_log` leaves: the lines it accepted, in index order,
right after what the buffer held before the cursor; it stops at the first line that does
not fit with its terminating NUL in the space left. -/
theorem fmt_loop_spec (text : Nat → List Char) (hpos : ∀ j, 0 < (text j).length)
    (n : Nat) :
    ∀ (i : Nat) (st : FmtState), st.bufptr + st.bufrem = st.buffer.length →
      ∃ k, k ≤ n ∧
        (fmt_loop text n i st).bufptr = st.bufptr + (concat_lines text k i).length ∧
        (fmt_loop text n i st).bufptr + (fmt_loop text n i st).bufrem
          = (fmt_loop text n i st).buffer.length ∧
        (fmt_loop text n i st).buffer.length = st.buffer.length ∧
        (fmt_loop text n i st).buffer.take (fmt_loop text n i st).bufptr
          = st.buffer.take st.bufptr ++ concat_lines text k i ∧
        (k < n → st.bufrem ≤ (concat_lines text k i).length + (text (i + k)).length) ∧
        ((concat_lines text n i).length < st.bufrem → k = n) := by
  induction n with
  | zero =>
    intro i st hst
    exact ⟨0, Nat.le_refl 0, by simp [fmt_loop, concat_lines], by simpa [fmt_loop] using hst,
      rfl, by simp [fmt_loop, concat_lines], fun h => absurd h (by omega), fun _ => rfl⟩
  | succ n ih =>
    intro i st hst
    by_cases hbrk : (text i).length ≤ 0 ∨ (text i).length ≥ st.bufrem
    · have hge : st.bufrem ≤ (text i).length := by
        have := hpos i
        rcases hbrk with h | h <;> omega
      have hf : fmt_loop text (n + 1) i st
          = { st with buffer := (snprintf st.buffer st.bufptr st.bufrem (text i)).1 } := by
        rw [fmt_loop]
        simp only [snprintf_snd]
        rw [if_pos hbrk]
      rw [hf]
      refine ⟨0, Nat.zero_le _, by simp [concat_lines], ?_, ?_, ?_, ?_, ?_⟩
      · simp only
        rw [snprintf_length _ _ _ _ (by omega)]; exact hst
      · exact snprintf_length _ _ _ _ (by omega)
      · simp only [concat_lines, List.append_nil]
        exact snprintf_keeps_front _ _ _ _ (by omega)
      · intro _
        simp only [concat_lines, List.length_nil, Nat.zero_add, Nat.add_zero]
        exact hge
      · intro hall
        rw [concat_lines_succ, List.length_append] at hall
        omega
    · have hlt : (text i).length < st.bufrem := by omega
      have hf : fmt_loop text (n + 1) i st
          = fmt_loop text n (i + 1)
              { buffer := (snprintf st.buffer st.bufptr st.bufrem (text i)).1,
                bufptr := st.bufptr + (text i).length,
                bufrem := st.bufrem - (text i).length } := by
        rw [fmt_loop]
        simp only [snprintf_snd]
        rw [if_neg hbrk]
      rw [hf]
      obtain ⟨k, hk, h1, h2, h3, h4, h5, h6⟩ := ih (i + 1)
        { buffer := (snprintf st.buffer st.bufptr st.bufrem (text i)).1,
          bufptr := st.bufptr + (text i).length,
          bufrem := st.bufrem - (text i).length }
        (by simp only
            rw [snprintf_length _ _ _ _ (by omega)]; omega)
      simp only at h1 h3 h4 h5 h6
      refine ⟨k + 1, by omega, ?_, h2, ?_, ?_, ?_, ?_⟩
      · rw [h1, concat_lines_succ, List.length_append]; omega
      · rw [h3]; exact snprintf_length _ _ _ _ (by omega)
      · rw [h4, snprintf_fits _ _ _ _ (by omega) hlt, concat_lines_succ,
          List.append_assoc]
      · intro hkn
        have := h5 (by omega)
        rw [concat_lines_succ, List.length_append]
        have he : i + (k + 1) = i + 1 + k := by omega
        rw [he]
        omega
      · intro hall
        rw [concat_lines_succ, List.length_append] at hall
        have := h6 (by omega)
        omega

theorem fmt_loop_bufrem_pos (text : Nat → List Char) (n : Nat) :
    ∀ (i : Nat) (st : FmtState), 0 < st.bufrem → 0 < (fmt_loop text n i st).bufrem := by
  induction n with
  | zero => intro i st h; simpa [fmt_loop] using h
  | succ n ih =>
    intro i st h
    rw [fmt_loop]
    simp only [snprintf_snd]
    split
    · exact h
    · rename_i hc
      apply ih
      simp only
      omega

theorem marker_text_pos (ops : FloatOps F) (prev bodies : phasespace_bodies F) (j : Nat) :
    0 < (marker_text ops prev bodies j).length := by
  simp only [marker_text, marker_line, List.length_append]
  have : ("marker ".toList).length = 7 := by decide
  omega

theorem rigid_text_pos (ops : FloatOps F) (prev bodies : phasespace_bodies F) (j : Nat) :
    0 < (rigid_text ops prev bodies j).length := by
  simp only [rigid_text, rigid_line, List.length_append]
  have : ("rigid ".toList).length = 6 := by decide
  omega

/-- What the two formatting loops of `owl_log` leave in front of the cursor: the marker
lines accepted, then the rigid-body lines accepted. -/
theorem format_frame_spec (ops : FloatOps F) (prev bodies : phasespace_bodies F)
    (buffer : List Char) (hbuf : buffer.length = LOG_BUFFER_SIZE) :
    ∃ km kr, km ≤ bodies.num_markers ∧ kr ≤ bodies.num_rigids ∧
      (format_frame ops prev bodies buffer).buffer.take
          (format_frame ops prev bodies buffer).bufptr
        = concat_lines (marker_text ops prev bodies) km 0
            ++ concat_lines (rigid_text ops prev bodies) kr 0 ∧
      (format_frame ops prev bodies buffer).bufptr < LOG_BUFFER_SIZE ∧
      (km < bodies.num_markers →
        LOG_BUFFER_SIZE ≤ (concat_lines (marker_text ops prev bodies) km 0).length
          + (marker_text ops prev bodies km).length) ∧
      (kr < bodies.num_rigids →
        LOG_BUFFER_SIZE ≤ (concat_lines (marker_text ops prev bodies) km 0).length
          + (concat_lines (rigid_text ops prev bodies) kr 0).length
          + (rigid_text ops prev bodies kr).length) ∧
      ((concat_lines (marker_text ops prev bodies) bodies.num_markers 0
          ++ concat_lines (rigid_text ops prev bodies) bodies.num_rigids 0).length
            < LOG_BUFFER_SIZE →
        km = bodies.num_markers ∧ kr = bodies.num_rigids) := by
  obtain ⟨km, hkm, a1, a2, a3, a4, a5, a6⟩ :=
    fmt_loop_spec (marker_text ops prev bodies) (marker_text_pos ops prev bodies)
      bodies.num_markers 0 { buffer := buffer, bufptr := 0, bufrem := LOG_BUFFER_SIZE }
      (by simp only; omega)
  obtain ⟨kr, hkr, b1, b2, b3, b4, b5, b6⟩ :=
    fmt_loop_spec (rigid_text ops prev bodies) (rigid_text_pos ops prev bodies)
      bodies.num_rigids 0
      (fmt_loop (marker_text ops prev bodies) bodies.num_markers 0
        { buffer := buffer, bufptr := 0, bufrem := LOG_BUFFER_SIZE }) a2
  simp only [Nat.zero_add, List.take_zero, List.nil_append] at a1 a3 a4 a5 a6 b5
  have hlenall : ∀ (x y : Nat),
      (concat_lines (marker_text ops prev bodies) x 0
        ++ concat_lines (rigid_text ops prev bodies) y 0).length
      = (concat_lines (marker_text ops prev bodies) x 0).length
        + (concat_lines (rigid_text ops prev bodies) y 0).length :=
    fun x y => List.length_append _ _
  refine ⟨km, kr, hkm, hkr, ?_, ?_, ?_, ?_, ?_⟩
  · show (fmt_loop _ _ 0 (fmt_loop _ _ 0 _)).buffer.take
        (fmt_loop _ _ 0 (fmt_loop _ _ 0 _)).bufptr = _
    rw [b4, a4]
  · show (fmt_loop _ _ 0 (fmt_loop _ _ 0 _)).bufptr < _
    have hp := fmt_loop_bufrem_pos (rigid_text ops prev bodies) bodies.num_rigids 0 _
      (fmt_loop_bufrem_pos (marker_text ops prev bodies) bodies.num_markers 0
        { buffer := buffer, bufptr := 0, bufrem := LOG_BUFFER_SIZE }
        (by show 0 < LOG_BUFFER_SIZE; decide))
    rw [b3, a3] at b2
    omega
  · intro h; simpa using a5 h
  · intro h
    have := b5 h
    omega
  · intro hall
    rw [hlenall] at hall
    have hm := a6 (by omega)
    subst hm
    refine ⟨rfl, b6 ?_⟩
    omega

theorem marker_text_newline (ops : FloatOps F) (prev bodies : phasespace_bodies F)
    (j : Nat) : (marker_text ops prev bodies j).getLast? = some (Char.ofNat 10) := by
  simp only [marker_text, marker_line]
  rw [List.getLast?_append]
  rfl

theorem rigid_text_newline (ops : FloatOps F) (prev bodies : phasespace_bodies F)
    (j : Nat) : (rigid_text ops prev bodies j).getLast? = some (Char.ofNat 10) := by
  simp only [rigid_text, rigid_line]
  rw [List.getLast?_append]
  rfl

theorem concat_lines_const (text : Nat → List Char) (line : List Char)
    (h : ∀ j, text j = line) (k : Nat) :
    ∀ i, (concat_lines text k i).length = k * line.length ∧
      count_lines (concat_lines text k i) = k * count_lines line := by
  induction k with
  | zero => intro i; simp [concat_lines, count_lines]
  | succ k ih =>
    intro i
    obtain ⟨h1, h2⟩ := ih (i + 1)
    rw [concat_lines_succ, h i]
    refine ⟨?_, ?_⟩
    · rw [List.length_append, h1]; ring
    · simp only [count_lines, List.count_append] at h2 ⊢
      rw [h2]; ring

theorem sample_started_prev (d : Nat) : (sample_started d).prev_bodies = zero_bodies zops := by
  simp only [sample_started, phsp_log_start, snprintf_snd]
  simp [zero_log]

theorem sample_started_buffer (d : Nat) :
    (sample_started d).buffer.length = LOG_BUFFER_SIZE := by
  simp only [sample_started, phsp_log_start, snprintf_snd]
  simp only [Option.isNone_none, Bool.true_eq_false, and_false, if_false]
  have h : ¬ ((3 : Int) < 0) := by decide
  have h2 : ¬ ((phsp_log_header ++ "\n".toList).length ≤ 0) := by decide
  simp only [h, h2, if_false, ne_eq, not_true_eq_false, Option.getD_some]
  rw [snprintf_length _ _ _ _ (by simp [zero_log])]
  simp [zero_log]

theorem sample_markers_text (n j : Nat) :
    marker_text zops (zero_bodies zops) (sample_markers n) j = sample_zero_line := by
  have hm : (sample_markers n).markers.getD j (zero_marker zops) = zero_marker zops :=
    zero_bodies_markers_getD zops j
  simp only [marker_text, hm]
  have hn : marker_noise zops (zero_bodies zops) j (zero_marker zops) = zops.zero := by
    simp [marker_noise, zero_bodies]
  rw [hn]
  decide

/-- Formatting an all-zero frame of at least 118 markers fills the staging buffer with
117 lines of 35 bytes. -/
theorem sample_markers_format (buffer : List Char) (hbuf : buffer.length = LOG_BUFFER_SIZE)
    (n : Nat) (hn : 118 ≤ n) :
    ((format_frame zops (zero_bodies zops) (sample_markers n) buffer).buffer.take
      (format_frame zops (zero_bodies zops) (sample_markers n) buffer).bufptr).length = 4095 ∧
    count_lines ((format_frame zops (zero_bodies zops) (sample_markers n) buffer).buffer.take
      (format_frame zops (zero_bodies zops) (sample_markers n) buffer).bufptr) = 117 := by
  obtain ⟨km, kr, h1, h2, h3, h4, h5, _, _⟩ :=
    format_frame_spec zops (zero_bodies zops) (sample_markers n) buffer hbuf
  have hnm : (sample_markers n).num_markers = n := rfl
  have hnr : (sample_markers n).num_rigids = 0 := rfl
  rw [hnm] at h1 h5
  rw [hnr] at h2
  have hkr : kr = 0 := by omega
  subst hkr
  obtain ⟨c1, c2⟩ := concat_lines_const
    (marker_text zops (zero_bodies zops) (sample_markers n)) sample_zero_line
    (sample_markers_text n) km 0
  have hl : sample_zero_line.length = 35 := by decide
  have hc : count_lines sample_zero_line = 1 := by decide
  rw [hl] at c1
  rw [hc] at c2
  simp only [concat_lines, List.append_nil] at h3
  have hlen : (concat_lines (marker_text zops (zero_bodies zops) (sample_markers n))
      km 0).length < LOG_BUFFER_SIZE := by
    rw [← h3, List.length_take]
    omega
  rw [sample_markers_text n km, hl, c1] at h5
  rw [c1] at hlen
  simp only [LOG_BUFFER_SIZE] at h5 hlen
  have hkm : km = 117 := by omega
  subst hkm
  rw [h3, c1, c2]
  exact ⟨rfl, rfl⟩

end LoggerLemmas

/-! ## Claims on the logger -/

section LoggerClaims

variable {F : Type}

/-- C3, refuted as stated: a logger started with decimation 1 whose header write is
still in progress when `owl_log` is called once submits no write on that call; the call
is counted in `total` and in `missed`. -/
theorem C3_counterexample :
    (phsp_log_start zops { malloc_ok := true, open_fd := 3, aio_write := 0 }
      "motion_log.txt".toList 1 none).1 = genom_event.genom_ok ∧
    (owl_log_seq zops
      [({ aio_error := EINPROGRESS, aio_return := 0, aio_write := 0 }, sample_markers 2)]
      (sample_started 1)).map (fun r => (r.1.total, r.1.missed, r.2.map writes))
      = some (1, 1, [[]]) := by
  decide

/-- C3, amended: for every decimation `d` with `1 ≤ d < 2 ^ 32` and every logger that
`phsp_log_start` started with decimation `d`, `d` successive `owl_log` calls all
return, raise `total` from 0 to exactly `d` and have no effect at all on the first
`d - 1` calls, whatever the completions. On the `d`-th call: if the header write is
reported in progress, nothing is submitted and the frame is counted as missed; if it
is reported complete with a positive result, `aio_write` is called exactly once, on the
descriptor and offset of the logger with the freshly formatted bytes, and the request
is pending afterwards exactly when `aio_write` returned 0. -/
theorem C3_decimated_run (ops : FloatOps F) (senv : StartEnv) (path : List Char)
    (d : Nat) (log0 : Option (phasespace_log_s F)) (l0 : phasespace_log_s F)
    (effs0 : List Effect) (hd : 1 ≤ d) (hd32 : d < 2 ^ 32)
    (hstart : phsp_log_start ops senv path d log0
      = (genom_event.genom_ok, some l0, effs0))
    (calls : List (AioEnv × phasespace_bodies F)) (last : AioEnv × phasespace_bodies F)
    (hlen : calls.length + 1 = d) :
    ∃ final eff_last,
      owl_log_seq ops (calls ++ [last]) l0
        = some (final, List.replicate calls.length [] ++ [eff_last]) ∧
      final.total = d ∧
      (last.1.aio_error = EINPROGRESS →
        eff_last = [] ∧ final.missed = 1 ∧ final.skipped = true) ∧
      (last.1.aio_error ≠ EINPROGRESS → 0 < last.1.aio_return →
        writes eff_last =
          [Effect.aio_write senv.open_fd 0
            ((format_frame ops (zero_bodies ops) last.2 l0.buffer).buffer.take
              (format_frame ops (zero_bodies ops) last.2 l0.buffer).bufptr)
            last.1.aio_write] ∧
        final.missed = 0 ∧ final.pending = decide (last.1.aio_write = 0)) := by
  obtain ⟨hfd, hfd2, hoff, hpend, hdec, htot, hmiss, hprev, _, _⟩ :=
    phsp_log_start_ok ops senv path d log0 l0 effs0 hstart
  rw [if_neg (by omega)] at hdec
  have hsm : d < SIZE_MOD := by
    have : (2 : Nat) ^ 32 < SIZE_MOD := by decide
    omega
  have hskip := owl_log_seq_skipped ops calls l0 hfd (by omega) (by omega)
  have hm : (l0.total + calls.length + 1) % SIZE_MOD = d := by
    rw [htot, Nat.zero_add, hlen]; exact Nat.mod_eq_of_lt hsm
  have hdue : (({ l0 with total := l0.total + calls.length } : phasespace_log_s F).total
      + 1) % SIZE_MOD
      % ({ l0 with total := l0.total + calls.length } : phasespace_log_s F).decimation
      = 0 := by
    show (l0.total + calls.length + 1) % SIZE_MOD % l0.decimation = 0
    rw [hm, hdec, Nat.mod_self]
  by_cases hprog : last.1.aio_error = EINPROGRESS
  · have hb := owl_log_backpressure ops last.1
      { l0 with total := l0.total + calls.length } last.2 hfd (by show 1 ≤ l0.decimation; omega)
      hdue hpend hprog
    refine ⟨_, _, owl_log_seq_append ops calls last l0 _ _ hskip _ hb, ?_, ?_, ?_⟩
    · exact hm
    · intro _
      refine ⟨rfl, ?_, rfl⟩
      show (l0.missed + 1) % SIZE_MOD = 1
      rw [hmiss]; decide
    · intro h; exact absurd hprog h
  · obtain ⟨r, hr, ht, hms, _, _, _, hpd, _, hw⟩ := owl_log_emit ops last.1
      { l0 with total := l0.total + calls.length } last.2 hfd
      (by show 1 ≤ l0.decimation; omega) hdue (fun h => hprog h.2)
    refine ⟨_, _, owl_log_seq_append ops calls last l0 _ _ hskip r hr, ?_, ?_, ?_⟩
    · rw [ht]; exact hm
    · intro h; exact absurd h hprog
    · intro _ hret
      refine ⟨?_, by rw [hms]; exact hmiss, hpd⟩
      rw [hw]
      have hnr : ¬ (l0.pending = true ∧ last.1.aio_return ≤ 0) := by
        intro h; omega
      simp only [hnr, if_false, hfd2, hoff, hprev]

/-- A logger started with decimation 3 and called three times, the header write being
reported complete with result 31 on the third call: the first two calls do nothing and
the third calls `aio_write` once. -/
theorem C3_decimated_run_witness :
    ∃ final eff_last,
      owl_log_seq zops
        ([({ aio_error := EINPROGRESS, aio_return := 0, aio_write := 0 }, sample_markers 2),
          ({ aio_error := 0, aio_return := 31, aio_write := 0 }, sample_markers 2)]
          ++ [({ aio_error := 0, aio_return := 31, aio_write := 0 }, sample_markers 2)])
        (sample_started 3)
        = some (final, List.replicate 2 [] ++ [eff_last]) ∧
      final.total = 3 ∧ (writes eff_last).length = 1 := by
  obtain ⟨final, eff_last, h1, h2, _, h4⟩ := C3_decimated_run zops
    { malloc_ok := true, open_fd := 3, aio_write := 0 } "motion_log.txt".toList 3 none
    (sample_started 3)
    [Effect.open_file "motion_log.txt".toList false 3,
      Effect.aio_write 3 0 (phsp_log_header ++ "\n".toList) 0]
    (by decide) (by decide) rfl
    [({ aio_error := EINPROGRESS, aio_return := 0, aio_write := 0 }, sample_markers 2),
      ({ aio_error := 0, aio_return := 31, aio_write := 0 }, sample_markers 2)]
    ({ aio_error := 0, aio_return := 31, aio_write := 0 }, sample_markers 2) rfl
  refine ⟨final, eff_last, h1, h2, ?_⟩
  rw [(h4 (by decide) (by decide)).1]
  rfl

/-- C4, refuted as stated: a logger started with decimation 2 has its header write
pending; with that write still in progress, the first `owl_log` call is skipped by
decimation before the pending test and leaves `missed` at 0. -/
theorem C4_counterexample :
    (sample_started 2).pending = true ∧ (sample_started 2).missed = 0 ∧
    (owl_log zops { aio_error := EINPROGRESS, aio_return := 0, aio_write := 0 }
      (sample_started 2) (sample_markers 2)).map (fun r => r.1.missed) = some 0 := by
  decide

/-- C4, amended: for every logger state (decimation at least 1, `missed` below
`SIZE_MAX`) whose previous write is pending and reported in progress, one `owl_log` call
returns, leaves the staging buffer unchanged and has no effect at all, so submits no
write; it increments `missed` by exactly one when the descriptor is valid and the call
is due, that is `(total + 1) mod decimation = 0`, and leaves `missed` unchanged
otherwise. -/
theorem C4_backpressure_skip (ops : FloatOps F) (env : AioEnv)
    (log : phasespace_log_s F) (bodies : phasespace_bodies F)
    (hpend : log.pending = true) (hprog : env.aio_error = EINPROGRESS)
    (hdec : 1 ≤ log.decimation) (hmissed : log.missed + 1 < SIZE_MOD) :
    ∃ r, owl_log ops env log bodies = some r ∧
      r.1.buffer = log.buffer ∧ r.2 = [] ∧
      r.1.missed =
        if 0 ≤ log.req.aio_fildes ∧ (log.total + 1) % SIZE_MOD % log.decimation = 0 then
          log.missed + 1
        else log.missed := by
  by_cases hfd : log.req.aio_fildes < 0
  · refine ⟨_, owl_log_disabled ops env log bodies hfd, rfl, rfl, ?_⟩
    rw [if_neg (by omega)]
  · by_cases hdue : (log.total + 1) % SIZE_MOD % log.decimation = 0
    · refine ⟨_, owl_log_backpressure ops env log bodies (not_lt.mp hfd) hdec hdue hpend
        hprog, rfl, rfl, ?_⟩
      rw [if_pos ⟨not_lt.mp hfd, hdue⟩]
      exact Nat.mod_eq_of_lt hmissed
    · refine ⟨_, owl_log_decimated ops env log bodies (not_lt.mp hfd) hdec hdue, rfl, rfl,
        ?_⟩
      rw [if_neg (fun h => hdue h.2)]

/-- A logger started with decimation 1 whose header write is still in progress: the
call is due and counts one missed frame. -/
theorem C4_backpressure_skip_witness :
    ∃ r, owl_log zops { aio_error := EINPROGRESS, aio_return := 0, aio_write := 0 }
        (sample_started 1) (sample_markers 2) = some r ∧
      r.1.buffer = (sample_started 1).buffer ∧ r.2 = [] ∧ r.1.missed = 1 := by
  obtain ⟨r, h1, h2, h3, h4⟩ := C4_backpressure_skip zops
    { aio_error := EINPROGRESS, aio_return := 0, aio_write := 0 }
    (sample_started 1) (sample_markers 2) (by decide) rfl (by decide) (by decide)
  exact ⟨r, h1, h2, h3, h4.trans (by decide)⟩

/-- C5, refuted as stated: once logging is disabled (descriptor `-1`, here after a
failed header write), an `owl_log` call leaves `total` as it was. -/
theorem C5_counterexample :
    sample_failed.req.aio_fildes = -1 ∧ sample_failed.total = 1 ∧
    (owl_log zops { aio_error := 0, aio_return := 1, aio_write := 0 } sample_failed
      (sample_markers 2)).map (fun r => r.1.total) = some 1 := by
  decide

/-- C5, amended: for every logger state with a decimation of at least 1 and `total`
below `SIZE_MAX`, and every frame, one `owl_log` call returns and increases `total` by
exactly one when the descriptor is valid (whether the call is skipped by decimation,
skipped by backpressure, or emits), and leaves `total` unchanged when the descriptor is
negative, that is once logging is disabled. -/
theorem C5_total_incremented_while_enabled (ops : FloatOps F) (env : AioEnv)
    (log : phasespace_log_s F) (bodies : phasespace_bodies F)
    (hdec : 1 ≤ log.decimation) (htotal : log.total + 1 < SIZE_MOD) :
    ∃ r, owl_log ops env log bodies = some r ∧
      r.1.total = if log.req.aio_fildes < 0 then log.total else log.total + 1 := by
  by_cases hfd : log.req.aio_fildes < 0
  · exact ⟨_, owl_log_disabled ops env log bodies hfd, by simp [hfd]⟩
  · obtain ⟨r, hr, ht, _⟩ := owl_log_total ops env log bodies (not_lt.mp hfd) hdec
    refine ⟨r, hr, ?_⟩
    rw [ht, if_neg hfd, Nat.mod_eq_of_lt htotal]

/-- A started logger with decimation 2: the first call, skipped by decimation, counts. -/
theorem C5_total_incremented_while_enabled_witness :
    ∃ r, owl_log zops { aio_error := 115, aio_return := 0, aio_write := 0 }
        (sample_started 2) (sample_markers 2) = some r ∧
      r.1.total = if (sample_started 2).req.aio_fildes < 0 then (sample_started 2).total
        else (sample_started 2).total + 1 :=
  C5_total_incremented_while_enabled zops _ (sample_started 2) (sample_markers 2)
    (by decide) (by decide)

set_option maxRecDepth 100000 in
/-- C6, the code at the failing input: a logger started with decimation 1 is called
while its header write has completed with result `-1`. The call marks the descriptor
invalid, and then still formats the frame and calls `aio_write` on descriptor `-1`;
with `aio_write` queuing the request (returning 0), the logger is left with a pending
write on an invalid descriptor. -/
theorem C6_failed_write_falls_through :
    (owl_log zops { aio_error := 0, aio_return := -1, aio_write := 0 } (sample_started 1)
      sample_frame).map (fun r => (r.1.req.aio_fildes, r.1.pending))
      = some (-1, true) ∧
    (owl_log zops { aio_error := 0, aio_return := -1, aio_write := 0 } (sample_started 1)
      sample_frame).map (fun r => r.2.map Effect.request)
      = some [none, none, some (-1, 0, 104, 0)] ∧
    (owl_log zops { aio_error := 0, aio_return := -1, aio_write := 0 } (sample_started 1)
      sample_frame).map (fun r => (queued_writes r.2).length) = some 1 := by
  decide

/-- C7: at most one asynchronous write is outstanding at any time. Over every outcome
of `phsp_log_start` that leaves a logger, every sequence of `owl_log` calls and every
behaviour of the subsystem (which requests complete before each call, and what
`aio_error`, `aio_return` and `aio_write` answer), every call returns, no request is
ever queued while an earlier one is still in progress, and at most one request is in
progress after each call. -/
theorem C7_single_outstanding_write (ops : FloatOps F) (senv : StartEnv)
    (path : List Char) (d : Nat) (log0 : Option (phasespace_log_s F)) (ev : genom_event)
    (l0 : phasespace_log_s F) (effs0 : List Effect)
    (hstart : phsp_log_start ops senv path d log0 = (ev, some l0, effs0))
    (ticks : List (Tick F)) :
    ∃ lf kf, system_run ops ticks (l0, effs0.foldl kernel_effect kernel_init)
        = some (lf, kf) ∧
      kf.overlap = false ∧ kf.inflight.length ≤ 1 := by
  have h0 := phsp_log_start_consistent ops senv path d log0 ev l0 effs0 hstart
  obtain ⟨st, hs, hc⟩ := system_run_consistent ops ticks l0 _ h0
  refine ⟨st.1, st.2, hs, hc.1, ?_⟩
  rcases hc.2.2 with h | ⟨h, _, _⟩ <;> rw [h] <;> simp

/-- A started logger called twice, the header write completing between the calls. -/
theorem C7_single_outstanding_write_witness :
    ∃ lf kf, system_run zops sample_ticks
        (sample_started 1,
          [Effect.open_file "motion_log.txt".toList false 3,
            Effect.aio_write 3 0 (phsp_log_header ++ "\n".toList) 0].foldl
            kernel_effect kernel_init)
        = some (lf, kf) ∧
      kf.overlap = false ∧ kf.inflight.length ≤ 1 :=
  C7_single_outstanding_write zops { malloc_ok := true, open_fd := 3, aio_write := 0 }
    "motion_log.txt".toList 1 none genom_event.genom_ok (sample_started 1) _ rfl
    sample_ticks

set_option maxRecDepth 100000 in
/-- C8, the code at the failing input: the stream announcing 2 markers and 1 rigid body
is decoded into a frame with these counts; logging it once on a logger started with
decimation 1, every write being queued and completing in full, leaves `total = 1` and
`missed = 0`, but the frame is written at file offset 0 over the header line: the file
holds the 2 marker lines and the rigid-body line, 3 lines in all, and no header line. -/
theorem C8_first_frame_overwrites_header :
    sample_frame.num_markers = 2 ∧ sample_frame.num_rigids = 1 ∧
    (file_after (sample_start_effects 1)).content = phsp_log_header ++ "\n".toList ∧
    (owl_log zops { aio_error := 0, aio_return := 31, aio_write := 0 } (sample_started 1)
      sample_frame).map
        (fun r => (r.1.total, r.1.missed,
          (file_after (sample_start_effects 1 ++ r.2)).content))
      = some (1, 0,
          ("marker 0.000000000 1 2 3 0 0 0 1 0\n"
            ++ "marker 0.000000000 4 5 6 0 0 0 1 0\n"
            ++ "rigid 0.000000000 7 8 9 0 0 0 1 0\n").toList) := by
  decide

/-- C9, refuted as stated: a frame of 128 markers is within capacity, yet the emitting
`owl_log` call submits 4095 bytes holding 117 lines, not 128: each line takes at least
35 bytes and the staging buffer has 4096. -/
theorem C9_counterexample :
    (sample_markers 128).num_markers ≤ PHASESPACE_MAX_MARKERS ∧
    (sample_markers 128).num_rigids ≤ PHASESPACE_MAX_RIGIDS ∧
    (owl_log zops { aio_error := 0, aio_return := 31, aio_write := 0 } (sample_started 1)
      (sample_markers 128)).map
        (fun r => (writes r.2).map (fun e => (e.bytes.length, count_lines e.bytes)))
      = some [(4095, 117)] := by
  refine ⟨by decide, by decide, ?_⟩
  obtain ⟨r, hr, _, _, _, _, _, _, _, hw⟩ := owl_log_emit zops
    { aio_error := 0, aio_return := 31, aio_write := 0 } (sample_started 1)
    (sample_markers 128) (by decide) (by decide) (by decide) (by decide)
  obtain ⟨h1, h2⟩ := sample_markers_format (sample_started 1).buffer
    (sample_started_buffer 1) 128 (by decide)
  rw [hr, Option.map_some', hw, sample_started_prev]
  simp only [List.map_cons, List.map_nil, Effect.bytes, h1, h2]

/-- C9, amended: for every frame and every `owl_log` call that emits (valid descriptor,
call due, previous write not in progress) on a logger whose staging buffer has its
4096 bytes, the call returns and hands `aio_write` whole newline-terminated lines only:
the first `km` marker lines in index order followed by the first `kr` rigid-body lines,
each loop stopping at the first line that does not fit, with its terminating NUL, in the
space left. When all the lines of the frame together take fewer than 4096 bytes, there
is exactly one line per marker and one per rigid body. -/
theorem C9_whole_lines_that_fit (ops : FloatOps F) (env : AioEnv)
    (log : phasespace_log_s F) (bodies : phasespace_bodies F)
    (hfd : 0 ≤ log.req.aio_fildes) (hdec : 1 ≤ log.decimation)
    (hdue : (log.total + 1) % SIZE_MOD % log.decimation = 0)
    (hready : ¬ (log.pending = true ∧ env.aio_error = EINPROGRESS))
    (hbuf : log.buffer.length = LOG_BUFFER_SIZE) :
    ∃ r km kr, owl_log ops env log bodies = some r ∧
      km ≤ bodies.num_markers ∧ kr ≤ bodies.num_rigids ∧
      (writes r.2).map Effect.bytes
        = [concat_lines (marker_text ops log.prev_bodies bodies) km 0
            ++ concat_lines (rigid_text ops log.prev_bodies bodies) kr 0] ∧
      (∀ j, (marker_text ops log.prev_bodies bodies j).getLast? = some (Char.ofNat 10)) ∧
      (∀ j, (rigid_text ops log.prev_bodies bodies j).getLast? = some (Char.ofNat 10)) ∧
      (km < bodies.num_markers →
        LOG_BUFFER_SIZE
          ≤ (concat_lines (marker_text ops log.prev_bodies bodies) km 0).length
            + (marker_text ops log.prev_bodies bodies km).length) ∧
      (kr < bodies.num_rigids →
        LOG_BUFFER_SIZE
          ≤ (concat_lines (marker_text ops log.prev_bodies bodies) km 0).length
            + (concat_lines (rigid_text ops log.prev_bodies bodies) kr 0).length
            + (rigid_text ops log.prev_bodies bodies kr).length) ∧
      ((concat_lines (marker_text ops log.prev_bodies bodies) bodies.num_markers 0
          ++ concat_lines (rigid_text ops log.prev_bodies bodies) bodies.num_rigids 0).length
            < LOG_BUFFER_SIZE →
        km = bodies.num_markers ∧ kr = bodies.num_rigids) := by
  obtain ⟨r, hr, _, _, _, _, _, _, _, hw⟩ :=
    owl_log_emit ops env log bodies hfd hdec hdue hready
  obtain ⟨km, kr, h1, h2, h3, _, h5, h6, h7⟩ :=
    format_frame_spec ops log.prev_bodies bodies log.buffer hbuf
  refine ⟨r, km, kr, hr, h1, h2, ?_, marker_text_newline ops _ _, rigid_text_newline ops _ _,
    h5, h6, h7⟩
  rw [hw, ← h3]
  rfl

/-- A frame of two markers on a freshly started logger whose header write completed:
both marker lines are submitted. -/
theorem C9_whole_lines_that_fit_witness :
    ∃ r, owl_log zops { aio_error := 0, aio_return := 31, aio_write := 0 }
        (sample_started 1) (sample_markers 2) = some r ∧
      (writes r.2).map Effect.bytes
        = ["marker 0.000000000 0 0 0 0 0 0 0 0\nmarker 0.000000000 0 0 0 0 0 0 0 0\n".toList]
      := by
  obtain ⟨r, km, kr, hr, hkm, hkr, hb, _, _, _, _, hall⟩ := C9_whole_lines_that_fit zops
    { aio_error := 0, aio_return := 31, aio_write := 0 } (sample_started 1)
    (sample_markers 2) (by decide) (by decide) (by decide) (by decide)
    (sample_started_buffer 1)
  obtain ⟨h1, h2⟩ := hall (by decide)
  subst h1
  subst h2
  exact ⟨r, hr, hb.trans (by decide)⟩

/-- C10: for the first frame logged after start, every noise value is exactly 0. After
`phsp_log_start` and any run of `owl_log` calls none of which called `aio_write` (so no
frame was formatted yet), the noise `owl_log` computes for marker `i` and for rigid body
`i` of any frame is the constant `0.0`, for every `i`, and the lines formatted carry
that value. -/
theorem C10_first_frame_noise_zero (ops : FloatOps F) (senv : StartEnv)
    (path : List Char) (d : Nat) (log0 : Option (phasespace_log_s F))
    (l0 : phasespace_log_s F) (effs0 : List Effect)
    (hstart : phsp_log_start ops senv path d log0
      = (genom_event.genom_ok, some l0, effs0))
    (calls : List (AioEnv × phasespace_bodies F)) (lf : phasespace_log_s F)
    (effs : List (List Effect))
    (hrun : owl_log_seq ops calls l0 = some (lf, effs))
    (hnone : ∀ e ∈ effs, writes e = [])
    (bodies : phasespace_bodies F) (i : Nat) :
    marker_noise ops lf.prev_bodies i (bodies.markers.getD i (zero_marker ops)) = ops.zero ∧
    rigid_noise ops lf.prev_bodies i (bodies.rigids.getD i (zero_rigid ops)) = ops.zero ∧
    marker_text ops lf.prev_bodies bodies i
      = marker_line ops (bodies.markers.getD i (zero_marker ops)) ops.zero ∧
    rigid_text ops lf.prev_bodies bodies i
      = rigid_line ops (bodies.rigids.getD i (zero_rigid ops))
          (euler_roll ops (bodies.rigids.getD i (zero_rigid ops)).qw
            (bodies.rigids.getD i (zero_rigid ops)).qx
            (bodies.rigids.getD i (zero_rigid ops)).qy
            (bodies.rigids.getD i (zero_rigid ops)).qz)
          (euler_pitch ops (bodies.rigids.getD i (zero_rigid ops)).qw
            (bodies.rigids.getD i (zero_rigid ops)).qx
            (bodies.rigids.getD i (zero_rigid ops)).qy
            (bodies.rigids.getD i (zero_rigid ops)).qz)
          (euler_yaw ops (bodies.rigids.getD i (zero_rigid ops)).qw
            (bodies.rigids.getD i (zero_rigid ops)).qx
            (bodies.rigids.getD i (zero_rigid ops)).qy
            (bodies.rigids.getD i (zero_rigid ops)).qz)
          ops.zero := by
  have hp : lf.prev_bodies = zero_bodies ops := by
    rw [owl_log_seq_no_write_prev ops calls l0 lf effs hrun hnone]
    exact (phsp_log_start_ok ops senv path d log0 l0 effs0 hstart).2.2.2.2.2.2.2.1
  rw [hp]
  refine ⟨?_, ?_, ?_, ?_⟩
  · simp [marker_noise, zero_bodies]
  · simp [rigid_noise, zero_bodies]
  · simp [marker_text, marker_noise, zero_bodies]
  · simp [rigid_text, rigid_noise, zero_bodies]

/-- A logger started with decimation 2 and called once: the call is skipped, and the
noise of marker 0 of the next frame is `0.0`. -/
theorem C10_first_frame_noise_zero_witness :
    marker_noise zops
      ({ sample_started 2 with total := 1 } : phasespace_log_s (Option Int)).prev_bodies 0
      (sample_prior.markers.getD 0 (zero_marker zops)) = some 0 :=
  (C10_first_frame_noise_zero zops { malloc_ok := true, open_fd := 3, aio_write := 0 }
    "motion_log.txt".toList 2 none (sample_started 2)
    [Effect.open_file "motion_log.txt".toList false 3,
      Effect.aio_write 3 0 (phsp_log_header ++ "\n".toList) 0] rfl
    [({ aio_error := EINPROGRESS, aio_return := 0, aio_write := 0 }, sample_prior)]
    { sample_started 2 with total := 1 } [[]] rfl (by decide) sample_prior 0).1

end LoggerClaims


/-! ## Further properties of the logger -/

section LoggerLemmasMore

variable {F : Type}

/-- Whatever `phsp_log_start` returns, the logger state it leaves has a decimation of at
least 1 and a request offset 0, the file was opened without `O_APPEND`, and a write it
submitted targets offset 0. -/
theorem phsp_log_start_shape (ops : FloatOps F) (senv : StartEnv) (path : List Char)
    (d : Nat) (log0 : Option (phasespace_log_s F)) (ev : genom_event)
    (l0 : phasespace_log_s F) (effs0 : List Effect)
    (hstart : phsp_log_start ops senv path d log0 = (ev, some l0, effs0)) :
    1 ≤ l0.decimation ∧ l0.decimation = (if d < 1 then 1 else d) ∧
    l0.req.aio_offset = 0 ∧
    (∀ e ∈ effs0, (∀ p a rc, e = Effect.open_file p a rc → a = false) ∧
      (∀ q, e.request = some q → q.2.1 = 0)) := by
  unfold phsp_log_start at hstart
  simp only [snprintf_snd] at hstart
  have hdd : 1 ≤ (if d < 1 then 1 else d) := by split <;> omega
  generalize (if d < 1 then 1 else d) = dd at hstart hdd ⊢
  split_ifs at hstart with h1 h2 h3 h4
  all_goals simp only [Prod.mk.injEq, Option.some.injEq, reduceCtorEq, and_false,
    false_and] at hstart
  all_goals obtain ⟨_, hl, he⟩ := hstart
  all_goals subst hl
  all_goals subst he
  all_goals refine ⟨hdd, rfl, rfl, ?_⟩
  all_goals simp [Effect.request, zero_log]
  all_goals (intros; omega)

/-- With a decimation of at least 1 every `owl_log` call returns. -/
theorem owl_log_returns (ops : FloatOps F) (env : AioEnv) (log : phasespace_log_s F)
    (bodies : phasespace_bodies F) (hdec : 1 ≤ log.decimation) :
    ∃ r, owl_log ops env log bodies = some r ∧ r.1.decimation = log.decimation := by
  by_cases hfd : log.req.aio_fildes < 0
  · exact ⟨_, owl_log_disabled ops env log bodies hfd, rfl⟩
  · obtain ⟨r, hr, _, hd⟩ := owl_log_total ops env log bodies (not_lt.mp hfd) hdec
    exact ⟨r, hr, hd⟩

theorem request_mem_writes (effs : List Effect) (e : Effect)
    (q : Int × Int × Nat × Int) (he : e ∈ effs) (hq : e.request = some q) :
    e ∈ writes effs := by
  cases e with
  | aio_write fd off bytes rc => simp [writes, Effect.isWrite, he]
  | open_file p a rc => simp [Effect.request] at hq
  | warnx m => simp [Effect.request] at hq
  | close fd => simp [Effect.request] at hq

/-- No `owl_log` call changes the offset of the request, and a write it submits
targets that offset. -/
theorem owl_log_offset (ops : FloatOps F) (env : AioEnv) (log : phasespace_log_s F)
    (bodies : phasespace_bodies F) (r : phasespace_log_s F × List Effect)
    (hr : owl_log ops env log bodies = some r) :
    r.1.req.aio_offset = log.req.aio_offset ∧
    (∀ e ∈ r.2, ∀ q, e.request = some q → q.2.1 = log.req.aio_offset) := by
  by_cases hfd : log.req.aio_fildes < 0
  · rw [owl_log_disabled ops env log bodies hfd] at hr
    simp only [Option.some.injEq] at hr
    rw [← hr]; simp
  · have hfd0 : 0 ≤ log.req.aio_fildes := not_lt.mp hfd
    by_cases hdec : log.decimation = 0
    · rw [owl_log_zero_divisor ops env log bodies hfd0 hdec] at hr
      simp at hr
    · have hdec1 : 1 ≤ log.decimation := by omega
      by_cases hdue : (log.total + 1) % SIZE_MOD % log.decimation = 0
      · by_cases hready : log.pending = true ∧ env.aio_error = EINPROGRESS
        · rw [owl_log_backpressure ops env log bodies hfd0 hdec1 hdue hready.1 hready.2] at hr
          simp only [Option.some.injEq] at hr
          rw [← hr]; simp
        · obtain ⟨r2, hr2, _, _, _, _, hoff, _, _, hw2⟩ :=
            owl_log_emit ops env log bodies hfd0 hdec1 hdue hready
          rw [hr2] at hr
          simp only [Option.some.injEq] at hr
          subst hr
          refine ⟨hoff, ?_⟩
          intro e he q hq
          have hm := request_mem_writes r2.2 e q he hq
          rw [hw2] at hm
          simp only [List.mem_singleton] at hm
          subst hm
          simp only [Effect.request, Option.some.injEq] at hq
          rw [← hq]
      · rw [owl_log_decimated ops env log bodies hfd0 hdec1 hdue] at hr
        simp only [Option.some.injEq] at hr
        rw [← hr]; simp

/-- A run of `owl_log` calls from a state with a decimation of at least 1 returns, keeps
the offset of the request, and every write it submits targets that offset. -/
theorem owl_log_seq_offset (ops : FloatOps F)
    (calls : List (AioEnv × phasespace_bodies F)) :
    ∀ (l : phasespace_log_s F), 1 ≤ l.decimation →
      ∃ lf effs, owl_log_seq ops calls l = some (lf, effs) ∧
        lf.req.aio_offset = l.req.aio_offset ∧
        (∀ es ∈ effs, ∀ e ∈ es, ∀ q, e.request = some q → q.2.1 = l.req.aio_offset) := by
  induction calls with
  | nil => intro l _; exact ⟨l, [], rfl, rfl, by simp⟩
  | cons c cs ih =>
    intro l hdec
    obtain ⟨r, hr, hd⟩ := owl_log_returns ops c.1 l c.2 hdec
    obtain ⟨h1, h2⟩ := owl_log_offset ops c.1 l c.2 r hr
    obtain ⟨lf, effs, hs, g1, g2⟩ := ih r.1 (by rw [hd]; exact hdec)
    refine ⟨lf, r.2 :: effs, ?_, by rw [g1, h1], ?_⟩
    · simp [owl_log_seq, hr, hs]
    · intro es hes e he q hq
      simp only [List.mem_cons] at hes
      rcases hes with hes | hes
      · subst hes; exact h2 e he q hq
      · rw [← h1]; exact g2 es hes e he q hq

end LoggerLemmasMore

/-! ## Claims on the logger, continued -/

section LoggerClaimsMore

variable {F : Type}

/-- C11: a decimation-skipped `owl_log` call changes nothing but `total`. For every
logger state with a valid descriptor and a decimation of at least 1, and every frame,
if the incremented counter is not a multiple of the decimation, that is
`(total + 1) mod decimation != 0` with `total + 1` as the `size_t` counter holds it,
then the call returns, has no effect at all (no write is attempted) and leaves
`missed`, `pending`, `skipped`, the staging buffer, the request with its descriptor and
the stored previous frame as they were; only `total` is incremented. -/
theorem C11_decimation_skip_only_counts (ops : FloatOps F) (env : AioEnv)
    (log : phasespace_log_s F) (bodies : phasespace_bodies F)
    (hfd : 0 ≤ log.req.aio_fildes) (hdec : 1 ≤ log.decimation)
    (hskip : (log.total + 1) % SIZE_MOD % log.decimation ≠ 0) :
    ∃ r, owl_log ops env log bodies = some r ∧ r.2 = [] ∧
      r.1.total = (log.total + 1) % SIZE_MOD ∧
      r.1.missed = log.missed ∧ r.1.pending = log.pending ∧
      r.1.skipped = log.skipped ∧ r.1.buffer = log.buffer ∧ r.1.req = log.req ∧
      r.1.prev_bodies = log.prev_bodies ∧ r.1.decimation = log.decimation ∧
      r.1.path = log.path :=
  ⟨_, owl_log_decimated ops env log bodies hfd hdec hskip, rfl, rfl, rfl, rfl, rfl, rfl,
    rfl, rfl, rfl, rfl⟩

/-- A logger started with decimation 3: the first call is skipped and only counted. -/
theorem C11_decimation_skip_only_counts_witness :
    ∃ r, owl_log zops { aio_error := 0, aio_return := 31, aio_write := 0 }
        (sample_started 3) sample_frame = some r ∧ r.2 = [] ∧ r.1.total = 1 ∧
      r.1.missed = (sample_started 3).missed ∧
      r.1.prev_bodies = (sample_started 3).prev_bodies := by
  obtain ⟨r, h1, h2, h3, h4, _, _, _, _, h9, _⟩ := C11_decimation_skip_only_counts zops
    { aio_error := 0, aio_return := 31, aio_write := 0 } (sample_started 3) sample_frame
    (by decide) (by decide) (by decide)
  exact ⟨r, h1, h2, h3.trans (by decide), h4, h9⟩

/-- C12, the code at the failing input: `owl_log_init` stores the requested decimation
as it is, so a requested value 0 leaves a logger with a valid descriptor and decimation
0, on which the next `owl_log` call evaluates `total % decimation` with a zero divisor;
`phsp_log_start` stores 1 for the same request. -/
theorem C12_owl_log_init_keeps_zero :
    (owl_log_init zops { malloc_ok := true, open_fd := 3, aio_write := 0 }
      "motion_log.txt".toList 0).1.decimation = 0 ∧
    (owl_log_init zops { malloc_ok := true, open_fd := 3, aio_write := 0 }
      "motion_log.txt".toList 0).1.req.aio_fildes = 3 ∧
    owl_log zops { aio_error := 0, aio_return := 52, aio_write := 0 }
      (owl_log_init zops { malloc_ok := true, open_fd := 3, aio_write := 0 }
        "motion_log.txt".toList 0).1 sample_frame = none ∧
    (sample_started 0).decimation = 1 := by
  decide

end LoggerClaimsMore

/-! ## Properties of the polling steps and of the rotor dispatcher -/

section PollLemmas

/-- The retry loop skips every interrupted call and ends on the first other answer. -/
theorem poll_retry_skips (eintrs : List PollOutcome)
    (hall : ∀ o ∈ eintrs, o.ret < 0 ∧ o.errno = EINTR) (final : PollOutcome)
    (hfinal : ¬ (final.ret < 0 ∧ final.errno = EINTR)) (rest : List PollOutcome) :
    poll_retry (eintrs ++ final :: rest) = some (final, rest) := by
  induction eintrs with
  | nil => simp [poll_retry, hfinal]
  | cons o os ih =>
    have ho := hall o (by simp)
    simp only [List.cons_append, poll_retry, ho, and_self, if_true]
    exact ih (fun x hx => hall x (by simp [hx]))

end PollLemmas

section RotorLemmas

variable {F : Type}

/-- The validation loop over slots none of which is flagged stores every clamped
velocity. -/
theorem check_rotors_ok (cmp : VelocityOps F) (rotor_data : Nat → rotor_state_s)
    (velocities : Nat → F) (n : Nat) :
    ∀ (i : Nat) (vbuf : List F),
      (∀ j, i ≤ j → j < i + n → rotor_flagged rotor_data j = false) →
      ∃ out, check_rotors cmp rotor_data velocities n i vbuf = Except.ok out := by
  induction n with
  | zero => intro i vbuf _; exact ⟨vbuf, rfl⟩
  | succ n ih =>
    intro i vbuf h
    have hi := h i (Nat.le_refl i) (by omega)
    simp only [rotor_flagged] at hi
    simp only [check_rotors, hi, Bool.false_eq_true, if_false]
    exact ih (i + 1) _ (fun j h1 h2 => h j (by omega) (by omega))

/-- The validation loop returns at the first flagged slot, with its 1-based
identifier. -/
theorem check_rotors_fails (cmp : VelocityOps F) (rotor_data : Nat → rotor_state_s)
    (velocities : Nat → F) (n : Nat) :
    ∀ (i : Nat) (vbuf : List F) (k : Nat), i ≤ k → k < i + n →
      rotor_flagged rotor_data k = true →
      (∀ j, i ≤ j → j < k → rotor_flagged rotor_data j = false) →
      check_rotors cmp rotor_data velocities n i vbuf = Except.error (1 + k) := by
  induction n with
  | zero => intro i vbuf k h1 h2; omega
  | succ n ih =>
    intro i vbuf k h1 h2 hk hbelow
    by_cases hik : k = i
    · subst hik
      simp only [rotor_flagged] at hk
      simp only [check_rotors, hk, if_true]
    · have hi := hbelow i (Nat.le_refl i) (by omega)
      simp only [rotor_flagged] at hi
      simp only [check_rotors, hi, Bool.false_eq_true, if_false]
      exact ih (i + 1) _ k (by omega) (by omega) hk
        (fun j h3 h4 => hbelow j (by omega) h4)

end RotorLemmas

/-! ## Claims on the polling steps, the Euler extraction and the rotor dispatcher -/

section StepClaims

variable {F : Type}

/-- C13, the code at the failing input: with `poll` returning 1 and `revents` holding
`POLLHUP` alone, `owl_poll` returns 0, the value of a timeout; with `POLLHUP` and
`POLLIN` together it returns 1, the value of readiness; it returns -1 in neither case.
On the same answers `phsp_publish_poll` does go to the error state. -/
theorem C13_owl_poll_ignores_hangup :
    owl_poll { fd := 3 } [{ ret := 1, errno := 0, revents := POLLHUP }] = some 0 ∧
    owl_poll { fd := 3 } [{ ret := 1, errno := 0, revents := POLLHUP ||| POLLIN }]
      = some 1 ∧
    phsp_publish_poll (some { fd := 3 }) [{ ret := 1, errno := 0, revents := POLLHUP }]
      = some (genom_event.phasespace_err, []) ∧
    phsp_publish_poll (some { fd := 3 })
      [{ ret := 1, errno := 0, revents := POLLHUP ||| POLLIN }]
      = some (genom_event.phasespace_err, []) := by
  decide

/-- C14: the transition function of `phsp_publish_poll`. With no server installed (null
handle or negative descriptor) the step yields `phasespace_pause_poll` and consumes no
answer of `poll`, so it does not wait. Otherwise, whatever number of interrupted calls
(`EINTR`) come first, they are retried, and the step is decided by the first answer
that is not an interruption: `phasespace_err` when the wait failed or the returned
events include `POLLHUP`, `phasespace_poll` when the wait timed out, `phasespace_recv`
in every remaining case. -/
theorem C14_publish_poll_transitions (server : Option phasespace_server_s)
    (eintrs : List PollOutcome) (hall : ∀ o ∈ eintrs, o.ret < 0 ∧ o.errno = EINTR)
    (final : PollOutcome) (hfinal : ¬ (final.ret < 0 ∧ final.errno = EINTR))
    (rest : List PollOutcome) :
    ((server = none ∨ ∃ srv, server = some srv ∧ srv.fd < 0) →
      phsp_publish_poll server (eintrs ++ final :: rest)
        = some (genom_event.phasespace_pause_poll, eintrs ++ final :: rest)) ∧
    (∀ srv, server = some srv → 0 ≤ srv.fd →
      (final.ret < 0 →
        phsp_publish_poll server (eintrs ++ final :: rest)
          = some (genom_event.phasespace_err, rest)) ∧
      (final.ret = 0 →
        phsp_publish_poll server (eintrs ++ final :: rest)
          = some (genom_event.phasespace_poll, rest)) ∧
      (0 < final.ret → final.revents &&& POLLHUP ≠ 0 →
        phsp_publish_poll server (eintrs ++ final :: rest)
          = some (genom_event.phasespace_err, rest)) ∧
      (0 < final.ret → final.revents &&& POLLHUP = 0 →
        phsp_publish_poll server (eintrs ++ final :: rest)
          = some (genom_event.phasespace_recv, rest))) := by
  refine ⟨?_, ?_⟩
  · rintro (h | ⟨srv, h, hfd⟩)
    · subst h; rfl
    · subst h; simp [phsp_publish_poll, hfd]
  · intro srv hsrv hfd
    subst hsrv
    have hp := poll_retry_skips eintrs hall final hfinal rest
    simp only [phsp_publish_poll, not_lt.mpr hfd, if_false, hp]
    refine ⟨?_, ?_, ?_, ?_⟩
    · intro h; simp [h]
    · intro h; simp [h]
    · intro h1 h2
      have h3 : ¬ final.ret < 0 := by omega
      have h4 : ¬ final.ret = 0 := by omega
      simp [h3, h4, h2]
    · intro h1 h2
      have h3 : ¬ final.ret < 0 := by omega
      have h4 : ¬ final.ret = 0 := by omega
      simp [h3, h4, h2]

/-- Two interrupted calls followed by readiness without hang-up: the step goes to
`phasespace_recv`. -/
theorem C14_publish_poll_transitions_witness :
    phsp_publish_poll (some { fd := 3 })
      ([{ ret := -1, errno := EINTR, revents := 0 },
        { ret := -1, errno := EINTR, revents := 0 }]
        ++ { ret := 1, errno := 0, revents := POLLIN } :: [])
      = some (genom_event.phasespace_recv, []) :=
  ((C14_publish_poll_transitions (some { fd := 3 })
    [{ ret := -1, errno := EINTR, revents := 0 },
      { ret := -1, errno := EINTR, revents := 0 }]
    (by decide) { ret := 1, errno := 0, revents := POLLIN } (by decide) []).2
      { fd := 3 } rfl (by decide)).2.2.2 (by decide) (by decide)

/-- The events of `phsp_publish_recv` and `phsp_publish_err`. With no logger or a logger
of decimation at least 1, `phsp_publish_recv` returns; for an event of type `ERROR` it
calls the logger, leaves the frame as it was and returns the exception
`phasespace_e_sys`, never `phasespace_err`; for an empty event it yields
`phasespace_poll` and changes nothing; for a `FRAME` event it yields `phasespace_poll`.
The handler of the error state, `phsp_publish_err`, disconnects the server when a handle
is installed, clears the handle and yields `phasespace_pause_poll`. -/
theorem publish_recv_and_err_events (ops : FloatOps F) (env : AioEnv)
    (evt : Option (Event F)) (log : Option (phasespace_log_s F))
    (bodies : phasespace_bodies F) (server : Option phasespace_server_s)
    (hlog : ∀ l, log = some l → 1 ≤ l.decimation) :
    (∃ r, phsp_publish_recv ops env evt log bodies = some r ∧
      (evt = none →
        r.event = genom_event.phasespace_poll ∧ r.bodies = bodies ∧ r.log = log ∧
          r.effects = []) ∧
      (∀ e, evt = some e → e.type_id = EventType.FRAME →
        r.event = genom_event.phasespace_poll) ∧
      (∀ e, evt = some e → e.type_id = EventType.ERROR →
        r.event = genom_event.phasespace_e_sys [] ∧
          r.event ≠ genom_event.phasespace_err ∧ r.bodies = bodies)) ∧
    phsp_publish_err server
      = (genom_event.phasespace_pause_poll, none, owl_disconnect server) := by
  have hrl : ∀ b, ∃ v, recv_log ops env log b = some v := by
    intro b
    cases log with
    | none => exact ⟨_, rfl⟩
    | some l =>
      obtain ⟨r, hr, _⟩ := owl_log_returns ops env l b (hlog l rfl)
      exact ⟨(some r.1, r.2), by simp [recv_log, hr]⟩
  refine ⟨?_, ?_⟩
  · cases evt with
    | none =>
      refine ⟨_, rfl, fun _ => ⟨rfl, rfl, rfl, rfl⟩, ?_, ?_⟩
      · intro e he; simp at he
      · intro e he; simp at he
    | some e =>
      by_cases hf : e.type_id = EventType.FRAME
      · obtain ⟨v, hv⟩ := hrl (recv_frame ops e bodies)
        refine ⟨{ event := genom_event.phasespace_poll, log := v.1,
                  bodies := recv_frame ops e bodies, effects := v.2 },
          by simp [phsp_publish_recv, hf, hv], ?_, ?_, ?_⟩
        · intro h; simp at h
        · intro e2 _ _; rfl
        · intro e2 he2 herr
          simp only [Option.some.injEq] at he2
          subst he2
          rw [hf] at herr
          simp at herr
      · by_cases hE : e.type_id = EventType.ERROR
        · obtain ⟨v, hv⟩ := hrl bodies
          refine ⟨{ event := genom_event.phasespace_e_sys [], log := v.1,
                    bodies := bodies, effects := v.2 },
            by simp [phsp_publish_recv, hE, hv], ?_, ?_, ?_⟩
          · intro h; simp at h
          · intro e2 he2 hfr
            simp only [Option.some.injEq] at he2
            subst he2
            exact absurd hfr hf
          · intro e2 _ _
            exact ⟨rfl, by simp, rfl⟩
        · obtain ⟨v, hv⟩ := hrl bodies
          refine ⟨{ event := genom_event.phasespace_poll, log := v.1,
                    bodies := bodies, effects := v.2 },
            by simp [phsp_publish_recv, hf, hE, hv], ?_, ?_, ?_⟩
          · intro h; simp at h
          · intro e2 he2 hfr
            simp only [Option.some.injEq] at he2
            subst he2
            exact absurd hfr hf
          · intro e2 he2 herr
            simp only [Option.some.injEq] at he2
            subst he2
            exact absurd herr hE
  · cases server with
    | none => rfl
    | some srv => rfl

/-- C15, the code at the failing input: for an event of type `ERROR`,
`phsp_publish_recv` does not return `phasespace_err`, the event of the error state: it
returns the exception `phasespace_e_sys`, so the error handler that disconnects the
server is not the next step. The sibling step `phsp_publish_poll` does return
`phasespace_err` when the wait fails. -/
theorem C15_error_event_throws :
    (phsp_publish_recv zops { aio_error := 0, aio_return := 0, aio_write := 0 }
      (some sample_error_event) none (zero_bodies zops)).map (fun r => r.event)
      = some (genom_event.phasespace_e_sys []) ∧
    (phsp_publish_recv zops { aio_error := 0, aio_return := 0, aio_write := 0 }
      (some sample_error_event) none (zero_bodies zops)).map (fun r => r.event)
      ≠ some genom_event.phasespace_err ∧
    phsp_publish_poll (some { fd := 3 }) [{ ret := -1, errno := 5, revents := 0 }]
      = some (genom_event.phasespace_err, []) := by
  decide

/-- C16: over the reals, the Euler extraction of `owl_log` maps the identity quaternion
(qw = 1, qx = qy = qz = 0) to roll = 0, pitch = 0 and yaw = 0. The primitives are the
real operations: `atan2 y x` is the argument of the complex number `x + iy`, `asin` the
real arcsine, `fmax` and `fmin` the maximum and the minimum. -/
theorem C16_identity_quaternion_euler (ops : FloatOps ℝ)
    (hone : ops.one = 1) (htwo : ops.two = 2)
    (hadd : ∀ a b, ops.add a b = a + b) (hsub : ∀ a b, ops.sub a b = a - b)
    (hmul : ∀ a b, ops.mul a b = a * b) (hneg : ∀ a, ops.neg a = -a)
    (hatan2 : ∀ y x, ops.atan2 y x = Complex.arg ⟨x, y⟩)
    (hasin : ∀ a, ops.asin a = Real.arcsin a)
    (hmax : ∀ a b, ops.fmax a b = max a b) (hmin : ∀ a b, ops.fmin a b = min a b) :
    euler_roll ops 1 0 0 0 = 0 ∧ euler_pitch ops 1 0 0 0 = 0 ∧
    euler_yaw ops 1 0 0 0 = 0 := by
  have harg : Complex.arg ⟨1, 0⟩ = 0 := Complex.arg_one
  refine ⟨?_, ?_, ?_⟩
  · simp only [euler_roll, hone, htwo, hadd, hsub, hmul, hatan2]
    norm_num
    exact harg
  · simp only [euler_pitch, hone, htwo, hsub, hmul, hneg, hasin, hmax, hmin]
    norm_num
  · simp only [euler_yaw, hone, htwo, hadd, hsub, hmul, hatan2]
    norm_num
    exact harg

/-- The real operations satisfy the hypotheses, and give the three angles 0. -/
theorem C16_identity_quaternion_euler_witness :
    euler_roll
      ({ zero := 0, one := 1, two := 2, add := fun a b => a + b, sub := fun a b => a - b,
         mul := fun a b => a * b, sqrt := Real.sqrt,
         atan2 := fun y x => Complex.arg ⟨x, y⟩, asin := Real.arcsin,
         fmax := fun a b => max a b, fmin := fun a b => min a b, neg := fun a => -a,
         ofF32 := fun _ _ _ _ => 0, fmtG := fun _ => [] } : FloatOps ℝ) 1 0 0 0 = 0 :=
  (C16_identity_quaternion_euler _ rfl rfl (fun _ _ => rfl) (fun _ _ => rfl)
    (fun _ _ => rfl) (fun _ => rfl) (fun _ _ => rfl) (fun _ => rfl) (fun _ _ => rfl)
    (fun _ _ => rfl)).1

/-- C17: rotor dispatch is all-or-nothing. With a connection, for every rotor-state
array and velocity vector: if a slot below `or_rotorcraft_max_rotors` is disabled or in
emergency, `my_set_all_rotor_velocity` sends no command at all and fails with
`rotorcraft_e_rotor_failure` carrying the 1-based identifier (index + 1) of the
lowest-indexed such slot; if no slot is, it returns `rotorcraft_ether` after sending
exactly one command per channel, in channel order. -/
theorem C17_dispatch_all_or_nothing (cmp : VelocityOps F) (max_rotors : Nat)
    (conn : rotorcraft_conn_s) (rotor_data : Nat → rotor_state_s) (velocities : Nat → F) :
    ((∃ i, i < max_rotors ∧ rotor_flagged rotor_data i = true) →
      ∃ k, k < max_rotors ∧ rotor_flagged rotor_data k = true ∧
        (∀ j, j < k → rotor_flagged rotor_data j = false) ∧
        my_set_all_rotor_velocity cmp max_rotors (some conn) rotor_data velocities
          = (rotorcraft_event.rotorcraft_e_rotor_failure (k + 1), [])) ∧
    ((∀ i, i < max_rotors → rotor_flagged rotor_data i = false) →
      (my_set_all_rotor_velocity cmp max_rotors (some conn) rotor_data velocities).1
          = rotorcraft_event.rotorcraft_ether ∧
      (my_set_all_rotor_velocity cmp max_rotors (some conn) rotor_data velocities).2.length
          = conn.n ∧
      (my_set_all_rotor_velocity cmp max_rotors (some conn) rotor_data velocities).2.map
          (fun c => c.chan) = List.range conn.n) := by
  refine ⟨?_, ?_⟩
  · intro hex
    have hex2 : ∃ i, i < max_rotors ∧ rotor_flagged rotor_data i = true := hex
    classical
    refine ⟨Nat.find hex2, (Nat.find_spec hex2).1, (Nat.find_spec hex2).2, ?_, ?_⟩
    · intro j hj
      have hmin := Nat.find_min hex2 hj
      have hjm : j < max_rotors := lt_trans hj (Nat.find_spec hex2).1
      cases hfl : rotor_flagged rotor_data j with
      | false => rfl
      | true => exact absurd ⟨hjm, hfl⟩ hmin
    · have hbelow : ∀ j, 0 ≤ j → j < Nat.find hex2 → rotor_flagged rotor_data j = false := by
        intro j _ hj
        have hmin := Nat.find_min hex2 hj
        have hjm : j < max_rotors := lt_trans hj (Nat.find_spec hex2).1
        cases hfl : rotor_flagged rotor_data j with
        | false => rfl
        | true => exact absurd ⟨hjm, hfl⟩ hmin
      have hc := check_rotors_fails cmp rotor_data velocities max_rotors 0 []
        (Nat.find hex2) (Nat.zero_le _) (by have := (Nat.find_spec hex2).1; omega)
        (Nat.find_spec hex2).2 hbelow
      simp only [my_set_all_rotor_velocity, hc]
      rw [Nat.add_comm]
  · intro hnone
    obtain ⟨out, hout⟩ := check_rotors_ok cmp rotor_data velocities max_rotors 0 []
      (fun j _ hj => hnone j (by omega))
    have heq : my_set_all_rotor_velocity cmp max_rotors (some conn) rotor_data velocities
        = (rotorcraft_event.rotorcraft_ether,
            (List.range conn.n).map (send_channel conn out)) := by
      simp only [my_set_all_rotor_velocity, hout]
    rw [heq]
    refine ⟨rfl, by simp, ?_⟩
    simp only [List.map_map]
    have : ((fun c : RotorCommand F => c.chan) ∘ send_channel conn out) = id := by
      funext m; rfl
    rw [this, List.map_id]

/-- With rotors 3 and 6 flagged, dispatch on two channels sends nothing and reports
rotor 3; with no rotor flagged it sends one command per channel, with clamped
velocities. -/
theorem C17_dispatch_all_or_nothing_witness :
    my_set_all_rotor_velocity zvel 8 (some sample_conn) sample_rotors sample_velocities
      = (rotorcraft_event.rotorcraft_e_rotor_failure 3, []) ∧
    (my_set_all_rotor_velocity zvel 8 (some sample_conn) sample_rotors_ok
      sample_velocities).2.map (fun c => c.chan) = List.range sample_conn.n := by
  have h := C17_dispatch_all_or_nothing zvel 8 sample_conn sample_rotors_ok
    sample_velocities
  exact ⟨by decide, (h.2 (fun i _ => rfl)).2.2⟩

/-- C18: the write offset of the logger's request is always 0. Whatever
`phsp_log_start` returns, the file was opened without `O_APPEND`, the request of the
logger state it leaves has offset 0 and the header write, if submitted, targets offset
0; every run of `owl_log` calls from that state returns, leaves the offset at 0, and
every write it submits (whatever its bytes) targets absolute offset 0. `owl_log_init`
too opens the file without `O_APPEND` and leaves the offset at 0. -/
theorem C18_write_offset_always_zero (ops : FloatOps F) (senv : StartEnv)
    (path : List Char) (d : Nat) (log0 : Option (phasespace_log_s F)) (ev : genom_event)
    (l0 : phasespace_log_s F) (effs0 : List Effect)
    (hstart : phsp_log_start ops senv path d log0 = (ev, some l0, effs0))
    (calls : List (AioEnv × phasespace_bodies F)) :
    (l0.req.aio_offset = 0 ∧
      ∀ e ∈ effs0, (∀ p a rc, e = Effect.open_file p a rc → a = false) ∧
        (∀ q, e.request = some q → q.2.1 = 0)) ∧
    (∃ lf effs, owl_log_seq ops calls l0 = some (lf, effs) ∧ lf.req.aio_offset = 0 ∧
      ∀ es ∈ effs, ∀ e ∈ es, ∀ q, e.request = some q → q.2.1 = 0) ∧
    ((owl_log_init ops senv path d).1.req.aio_offset = 0 ∧
      ∀ e ∈ (owl_log_init ops senv path d).2,
        (∀ p a rc, e = Effect.open_file p a rc → a = false) ∧
        (∀ q, e.request = some q → q.2.1 = 0)) := by
  obtain ⟨hdec, _, hoff, heff⟩ := phsp_log_start_shape ops senv path d log0 ev l0 effs0 hstart
  refine ⟨⟨hoff, heff⟩, ?_, ?_⟩
  · obtain ⟨lf, effs, hs, h1, h2⟩ := owl_log_seq_offset ops calls l0 hdec
    rw [hoff] at h1 h2
    exact ⟨lf, effs, hs, h1, h2⟩
  · unfold owl_log_init
    simp only [snprintf_snd]
    split_ifs
    all_goals refine ⟨by simp [zero_log], ?_⟩
    all_goals simp [Effect.request, zero_log]
    all_goals (intros; omega)

/-- A logger started with decimation 1 and called once with the header write complete:
the frame is written at offset 0. -/
theorem C18_write_offset_always_zero_witness :
    ∃ lf effs, owl_log_seq zops
        [({ aio_error := 0, aio_return := 31, aio_write := 0 }, sample_frame)]
        (sample_started 1) = some (lf, effs) ∧ lf.req.aio_offset = 0 ∧
      ∀ es ∈ effs, ∀ e ∈ es, ∀ q, e.request = some q → q.2.1 = 0 :=
  (C18_write_offset_always_zero zops { malloc_ok := true, open_fd := 3, aio_write := 0 }
    "motion_log.txt".toList 1 none genom_event.genom_ok (sample_started 1)
    [Effect.open_file "motion_log.txt".toList false 3,
      Effect.aio_write 3 0 (phsp_log_header ++ "\n".toList) 0] rfl
    [({ aio_error := 0, aio_return := 31, aio_write := 0 }, sample_frame)]).2.1

end StepClaims

end Phasespace
